import Mathlib

/-!
Verification of the pie/slice allocation core of the ibkr-frontend-refresh
backend (`backend/app`), as a shallow embedding in Lean.

Modelling conventions:

* SQL tables (`portfolios`, `pies`, `slices` from `app/models/*.py`) become
  lists of row structures inside a `DB` state record.  Rows are kept in
  insertion order; `created_at` timestamps are not modelled, because every
  `ORDER BY ..., created_at` tie-break in the source coincides with insertion
  order (timestamps are set monotonically at insert time) and no property
  below observes the tie order.
* `Decimal` columns/values (`Numeric(5, 2)`) are modelled as `ℚ`: the
  services only add, subtract and compare decimals, which is exact.
* Python string ids (uuid4 strings) are opaque `String`s; freshly generated
  ids are passed in as explicit `fresh…` arguments.
* A service method that can return `None`, raise `ValueError`, or trip the
  database's UNIQUE constraint at `flush()` (an `IntegrityError`, which no
  caller catches) returns a `SvcResult`.  The `valueError` payload is a
  `DomainError`, one constructor per f-string template in the source, whose
  fields are exactly the values interpolated into that template.
* HTTP endpoints (`app/api/pies.py`, `app/api/slices.py`) become functions
  returning a `Resp`: a status code, an optional body, and the database
  state as observable after the request.  Per `app/core/database.py`
  `get_session`, the session is committed on normal exit and rolled back
  when an exception (including `HTTPException`) escapes the handler, so
  error responses carry the state as of the last explicit commit; the only
  mid-request commit is `PortfolioService.create_portfolio`.
* Python's `x or 0` on an optional integer is `Option.getD x 0` (both map
  `None` and `0` to `0`).  Python truthiness of an optional string
  (`if data.portfolio_id:`) is `py_truthy`.
-/

/-- Row of the `portfolios` table (`app/models/portfolio.py`). -/
structure PortfolioRow where
  id : String
  user_id : String
  name : String
  description : Option String
  account_type : Option String
  ibkr_account_id : Option String
  auto_invest_enabled : Bool
deriving DecidableEq

/-- Row of the `pies` table (`app/models/pie.py`). -/
structure PieRow where
  id : String
  portfolio_id : String
  name : String
  description : Option String
  color : String
  icon : Option String
  target_allocation : ℚ
  display_order : Int
  is_active : Bool
deriving DecidableEq

/-- Row of the `slices` table (`app/models/slice.py`).  The table carries
`UniqueConstraint("pie_id", "symbol", name="uq_slice_pie_symbol")`, enforced
by the database at flush time (modelled inside the service functions). -/
structure SliceRow where
  id : String
  pie_id : String
  symbol : String
  name : Option String
  target_weight : ℚ
  display_order : Int
  notes : Option String
  is_active : Bool
deriving DecidableEq

/-- The relational store: the three tables, rows in insertion order. -/
structure DB where
  portfolios : List PortfolioRow
  pies : List PieRow
  slices : List SliceRow
deriving DecidableEq

/-- Python `str.upper()` on the ASCII ticker/symbol strings used here:
character-wise upper-casing. -/
def strUpper (s : String) : String := ⟨s.data.map Char.toUpper⟩

/-- Python truthiness of an optional string: `None` and `""` are falsy.
Used for `if data.portfolio_id:` in `create_pie`/`update_pie`. -/
def py_truthy (o : Option String) : Bool := o.getD "" != ""

/-- Error payloads of the allocation guard, one constructor per f-string
template in the source, fields = the interpolated values:

* `sliceCreateExceeded c n t` — `SliceService.create`:
  "Total weight would exceed 100%. Current: C%, New: N%, Total would be: T%"
* `sliceUpdateExceeded t` — `SliceService.update`:
  "Total weight would exceed 100%. New total would be: T%"
* `pieCreateExceeded c r` — `create_pie` endpoint:
  "Total allocation would exceed 100%. Current: C%, Requested: R%"
* `pieUpdateExceeded t` — `update_pie` endpoint:
  "Total allocation would exceed 100%. New total would be: T%"
-/
inductive DomainError where
  | sliceCreateExceeded (current attempted total : ℚ)
  | sliceUpdateExceeded (newTotal : ℚ)
  | pieCreateExceeded (current requested : ℚ)
  | pieUpdateExceeded (newTotal : ℚ)
deriving DecidableEq

/-- Outcome of a service call: Python `None`/`False` (`notFound`), a raised
`ValueError` (`valueError`), a database `IntegrityError` raised at `flush()`
(`integrityError`, uncaught by every caller), or success together with the
mutated session state. -/
inductive SvcResult (α : Type) where
  | notFound : SvcResult α
  | valueError (e : DomainError) : SvcResult α
  | integrityError : SvcResult α
  | ok (a : α) (db : DB) : SvcResult α
deriving DecidableEq

/-- An HTTP response: status code, optional JSON body, and the database
state observable after the request (post commit/rollback). -/
structure Resp (α : Type) where
  status : Nat
  body : Option α
  db : DB
deriving DecidableEq

/-- `SELECT MAX`-style fold used by the `ORDER BY display_order DESC LIMIT 1`
queries in `PieService.create` / `SliceService.create`:
`scalar_one_or_none()` yields the greatest element, or `None` on an empty
collection. -/
def max_order_of : List Int → Option Int
  | [] => none
  | x :: xs =>
    match max_order_of xs with
    | none => some x
    | some m => some (max x m)

/-- One pass of the reorder loops of `PieService.reorder` /
`SliceService.reorder`: for each id in the list, in sequence, issue
`UPDATE … SET display_order = index WHERE id = <id> AND <scope>`.
`hit i a` is the row predicate of the `UPDATE`, `set_ord k a` its `SET`
clause, `k` the running index. -/
def reorder_loop {α : Type} (hit : String → α → Bool) (set_ord : Int → α → α) :
    List String → Int → List α → List α
  | [], _, l => l
  | i :: rest, k, l =>
    reorder_loop hit set_ord rest (k + 1)
      (l.map fun a => if hit i a then set_ord k a else a)

namespace SliceService

/-- `SliceService._verify_pie_ownership`: `SELECT pies.id WHERE id = pie_id
AND portfolio_id = portfolio_id` is non-empty. -/
def verify_pie_ownership (db : DB) (pie_id portfolio_id : String) : Bool :=
  db.pies.any fun p => p.id == pie_id && p.portfolio_id == portfolio_id

/-- `SliceService.get_by_id`: `SELECT slices JOIN pies WHERE slices.id =
slice_id AND pies.portfolio_id = portfolio_id` (the join condition
`slices.pie_id = pies.id` is the `_verify_pie_ownership` shape);
`scalar_one_or_none` under unique ids is the first match. -/
def get_by_id (db : DB) (slice_id portfolio_id : String) : Option SliceRow :=
  db.slices.find? fun s =>
    s.id == slice_id && verify_pie_ownership db s.pie_id portfolio_id

/-- `SliceService.get_total_weight`: sum of `target_weight` over the pie's
active slices (`WHERE pie_id = pie_id AND is_active`). -/
def get_total_weight (db : DB) (pie_id : String) : ℚ :=
  ((db.slices.filter fun s => s.pie_id == pie_id && s.is_active).map
    fun s => s.target_weight).sum

/-- `SliceService.get_all_by_pie`: ownership check, then the pie's slices
ordered by `display_order` (`created_at` tie-break = insertion order, kept
by the stable insertion sort), active only unless `include_inactive`. -/
def get_all_by_pie (db : DB) (pie_id portfolio_id : String)
    (include_inactive : Bool) : List SliceRow :=
  if ¬ verify_pie_ownership db pie_id portfolio_id then []
  else
    (db.slices.filter fun s =>
        s.pie_id == pie_id && (include_inactive || s.is_active)).insertionSort
      fun a b => a.display_order ≤ b.display_order

/-- `SliceService.create`: ownership check (`None` when the pie is not in
the portfolio); allocation guard `current_total + target_weight > 100`
raising `ValueError` with current/new/total interpolated; next display
order `(max sibling display_order or 0) + 1`; symbol stored upper-cased;
`is_active` column default `True`; the `flush()` trips the
`(pie_id, symbol)` UNIQUE constraint when a sibling row already carries the
stored symbol. -/
def create (db : DB) (fresh_slice_id pie_id portfolio_id symbol : String)
    (target_weight : ℚ) (name notes : Option String) : SvcResult SliceRow :=
  if ¬ verify_pie_ownership db pie_id portfolio_id then .notFound
  else
    let current_total := get_total_weight db pie_id
    if current_total + target_weight > 100 then
      .valueError
        (.sliceCreateExceeded current_total target_weight
          (current_total + target_weight))
    else
      let max_order :=
        (max_order_of
            ((db.slices.filter fun s => s.pie_id == pie_id).map
              fun s => s.display_order)).getD 0
      let row : SliceRow :=
        { id := fresh_slice_id, pie_id := pie_id, symbol := strUpper symbol,
          name := name, target_weight := target_weight,
          display_order := max_order + 1, notes := notes, is_active := true }
      if db.slices.any (fun t => t.pie_id == pie_id && t.symbol == row.symbol)
      then .integrityError
      else .ok row { db with slices := db.slices ++ [row] }

/-- The field assignments of `SliceService.update`: each `if arg is not
None: setattr` in turn; the symbol is upper-cased. -/
def apply_update (s : SliceRow) (symbol : Option String) (name : Option String)
    (target_weight : Option ℚ) (notes : Option String)
    (is_active : Option Bool) : SliceRow :=
  { s with
    symbol := match symbol with | some v => strUpper v | none => s.symbol
    name := match name with | some v => some v | none => s.name
    target_weight := match target_weight with | some v => v | none => s.target_weight
    notes := match notes with | some v => some v | none => s.notes
    is_active := match is_active with | some v => v | none => s.is_active }

/-- The allocation guard inside `SliceService.update`: only when a
`target_weight` is provided and differs from the stored value, compute
`new_total = get_total_weight(pie) - stored + new` and raise `ValueError`
(with only `new_total` interpolated) when it exceeds 100. -/
def update_guard_err (db : DB) (s : SliceRow) (target_weight : Option ℚ) :
    Option DomainError :=
  match target_weight with
  | some w =>
    if w ≠ s.target_weight then
      let current_total := get_total_weight db s.pie_id
      let new_total := current_total - s.target_weight + w
      if new_total > 100 then some (.sliceUpdateExceeded new_total) else none
    else none
  | none => none

/-- The `flush()` of `SliceService.update` against the `(pie_id, symbol)`
UNIQUE constraint: some other row already carries the updated row's pie and
symbol. -/
def update_dup (db : DB) (self_id : String) (s' : SliceRow) : Bool :=
  db.slices.any fun t =>
    !(t.id == self_id) && t.pie_id == s'.pie_id && t.symbol == s'.symbol

/-- `SliceService.update`: scoped lookup (`None` if unreachable); the
allocation guard (`update_guard_err`); then field assignment
(`apply_update`) and `flush()` (`update_dup`; an `IntegrityError` escapes
and the transaction is rolled back). -/
def update (db : DB) (slice_id portfolio_id : String) (symbol : Option String)
    (name : Option String) (target_weight : Option ℚ) (notes : Option String)
    (is_active : Option Bool) : SvcResult SliceRow :=
  match get_by_id db slice_id portfolio_id with
  | none => .notFound
  | some s =>
    match update_guard_err db s target_weight with
    | some e => .valueError e
    | none =>
      let s' := apply_update s symbol name target_weight notes is_active
      if update_dup db s.id s' then .integrityError
      else
        .ok s'
          { db with
            slices := db.slices.map fun t => if t.id == s.id then s' else t }

/-- `SliceService.delete`: scoped lookup, then `DELETE WHERE slices.id =
slice_id` (id only); returns `rowcount > 0`. -/
def delete (db : DB) (slice_id portfolio_id : String) : Bool × DB :=
  match get_by_id db slice_id portfolio_id with
  | none => (false, db)
  | some _ =>
    (db.slices.any fun s => s.id == slice_id,
      { db with slices := db.slices.filter fun s => !(s.id == slice_id) })

/-- `SliceService.reorder`: ownership check (`False` when the pie is not in
the portfolio), then per-id `UPDATE … SET display_order = index WHERE id =
slice_id AND pie_id = pie_id`, indices 0-based in list sequence. -/
def reorder (db : DB) (pie_id portfolio_id : String) (slice_ids : List String) :
    Bool × DB :=
  if ¬ verify_pie_ownership db pie_id portfolio_id then (false, db)
  else
    (true,
      { db with
        slices :=
          reorder_loop (fun i s => s.id == i && s.pie_id == pie_id)
            (fun k s => { s with display_order := k }) slice_ids 0 db.slices })

end SliceService

namespace PieService

/-- `PieService.get_by_id`: `SELECT pies WHERE id = pie_id AND portfolio_id
= portfolio_id`, first match under unique ids. -/
def get_by_id (db : DB) (pie_id portfolio_id : String) : Option PieRow :=
  db.pies.find? fun p => p.id == pie_id && p.portfolio_id == portfolio_id

/-- `PieService.get_all_by_portfolio`: the portfolio's pies ordered by
`display_order` (`created_at` tie-break = insertion order, kept by the
stable insertion sort), active only unless `include_inactive`. -/
def get_all_by_portfolio (db : DB) (portfolio_id : String)
    (include_inactive : Bool) : List PieRow :=
  (db.pies.filter fun p =>
      p.portfolio_id == portfolio_id && (include_inactive || p.is_active)).insertionSort
    fun a b => a.display_order ≤ b.display_order

/-- `PieService.create`: next display order `(max sibling display_order or
0) + 1` over all of the portfolio's pies; `is_active` column default
`True`; no failure paths. -/
def create (db : DB) (fresh_pie_id portfolio_id name : String)
    (description : Option String) (color : String) (icon : Option String)
    (target_allocation : ℚ) : PieRow × DB :=
  let max_order :=
    (max_order_of
        ((db.pies.filter fun p => p.portfolio_id == portfolio_id).map
          fun p => p.display_order)).getD 0
  let pie : PieRow :=
    { id := fresh_pie_id, portfolio_id := portfolio_id, name := name,
      description := description, color := color, icon := icon,
      target_allocation := target_allocation, display_order := max_order + 1,
      is_active := true }
  (pie, { db with pies := db.pies ++ [pie] })

/-- The field assignments of `PieService.update`. -/
def apply_update (p : PieRow) (name : Option String) (description : Option String)
    (color : Option String) (icon : Option String)
    (target_allocation : Option ℚ) (is_active : Option Bool) : PieRow :=
  { p with
    name := match name with | some v => v | none => p.name
    description := match description with | some v => some v | none => p.description
    color := match color with | some v => v | none => p.color
    icon := match icon with | some v => some v | none => p.icon
    target_allocation := match target_allocation with | some v => v | none => p.target_allocation
    is_active := match is_active with | some v => v | none => p.is_active }

/-- `PieService.update`: scoped lookup (`None` when the pie is not in the
portfolio), then field assignment; the service itself performs no
allocation check (that lives in the `update_pie` endpoint). -/
def update (db : DB) (pie_id portfolio_id : String) (name : Option String)
    (description : Option String) (color : Option String) (icon : Option String)
    (target_allocation : Option ℚ) (is_active : Option Bool) :
    SvcResult PieRow :=
  match get_by_id db pie_id portfolio_id with
  | none => .notFound
  | some p =>
    let p' := apply_update p name description color icon target_allocation is_active
    .ok p' { db with pies := db.pies.map fun q => if q.id == p.id then p' else q }

/-- `PieService.delete`: `DELETE WHERE id = pie_id AND portfolio_id =
portfolio_id`; the `ondelete="CASCADE"` referential action removes the
deleted pies' slices; returns `rowcount > 0`. -/
def delete (db : DB) (pie_id portfolio_id : String) : Bool × DB :=
  let hit := fun (p : PieRow) => p.id == pie_id && p.portfolio_id == portfolio_id
  let deleted_ids := (db.pies.filter hit).map fun p => p.id
  (db.pies.any hit,
    { db with
      pies := db.pies.filter fun p => !(hit p)
      slices := db.slices.filter fun s => !(deleted_ids.contains s.pie_id) })

/-- `PieService.reorder`: per-id `UPDATE … SET display_order = index WHERE
id = pie_id AND portfolio_id = portfolio_id`, indices 0-based in list
sequence; always returns `True`. -/
def reorder (db : DB) (portfolio_id : String) (pie_ids : List String) :
    Bool × DB :=
  (true,
    { db with
      pies :=
        reorder_loop (fun i p => p.id == i && p.portfolio_id == portfolio_id)
          (fun k p => { p with display_order := k }) pie_ids 0 db.pies })

/-- `PieService.get_total_allocation`: sum of `target_allocation` over
`get_all_by_portfolio(portfolio_id)` (active pies only). -/
def get_total_allocation (db : DB) (portfolio_id : String) : ℚ :=
  ((get_all_by_portfolio db portfolio_id false).map
    fun p => p.target_allocation).sum

end PieService

namespace PortfolioService

/-- `PortfolioService.get_user_portfolios`: the user's portfolios `ORDER BY
name`. -/
def get_user_portfolios (db : DB) (user_id : String) : List PortfolioRow :=
  (db.portfolios.filter fun p => p.user_id == user_id).insertionSort
    fun a b => a.name ≤ b.name

/-- `PortfolioService.create_portfolio`: insert a portfolio row for the
user and `commit()` immediately (the one mid-request commit). -/
def create_portfolio (db : DB) (fresh_portfolio_id user_id name : String)
    (description account_type ibkr_account_id : Option String) :
    PortfolioRow × DB :=
  let row : PortfolioRow :=
    { id := fresh_portfolio_id, user_id := user_id, name := name,
      description := description, account_type := account_type,
      ibkr_account_id := ibkr_account_id, auto_invest_enabled := false }
  (row, { db with portfolios := db.portfolios ++ [row] })

end PortfolioService

namespace Api

/-- `_get_user_default_portfolio` (identical in `app/api/pies.py` and
`app/api/slices.py`): first of the user's portfolios (in name order) named
exactly "Default Portfolio", else create one with that literal name and
the fixed description and return its id. -/
def get_user_default_portfolio (db : DB) (user_id fresh_portfolio_id : String) :
    String × DB :=
  let portfolios := PortfolioService.get_user_portfolios db user_id
  match portfolios.find? (fun p => p.name == "Default Portfolio") with
  | some p => (p.id, db)
  | none =>
    let (p, db1) :=
      PortfolioService.create_portfolio db fresh_portfolio_id user_id
        "Default Portfolio" (some "Default portfolio for pies") none none
    (p.id, db1)

/-- The portfolio-resolution block written inline (identically) at the top
of the `create_pie` and `update_pie` endpoints: a truthy payload
`portfolio_id` is checked against the user's portfolios (`none` = 403),
otherwise the default portfolio is resolved (and possibly created). -/
def resolve_portfolio (db : DB) (user_id : String)
    (data_portfolio_id : Option String) (fresh_portfolio_id : String) :
    Option (String × DB) :=
  if py_truthy data_portfolio_id then
    if (PortfolioService.get_user_portfolios db user_id).any
        (fun p => p.id == data_portfolio_id.getD "")
    then some (data_portfolio_id.getD "", db) else none
  else some (get_user_default_portfolio db user_id fresh_portfolio_id)

/-- `create_pie` endpoint (`POST /pies`): explicit (truthy) portfolio id
with ownership check (403 on failure), else the default portfolio; then the
pie-level allocation guard `current_total + target_allocation > 100` (400,
detail template `pieCreateExceeded`), then `PieService.create` (201). -/
def create_pie (db : DB) (user_id : String) (data_portfolio_id : Option String)
    (name : String) (description : Option String) (color : String)
    (icon : Option String) (target_allocation : ℚ)
    (fresh_portfolio_id fresh_pie_id : String) : Resp PieRow :=
  match resolve_portfolio db user_id data_portfolio_id fresh_portfolio_id with
  | none => { status := 403, body := none, db := db }
  | some (portfolio_id, db1) =>
    let current_total := PieService.get_total_allocation db1 portfolio_id
    if current_total + target_allocation > 100 then
      { status := 400, body := none, db := db1 }
    else
      let (pie, db2) :=
        PieService.create db1 fresh_pie_id portfolio_id name description color
          icon target_allocation
      { status := 201, body := some pie, db := db2 }

/-- `update_pie` endpoint (`PATCH /pies/{pie_id}`): portfolio resolution as
in `create_pie` (payload override, truthy); when a `target_allocation` is
provided (no equality skip), a scoped existence check (404) and the guard
`get_total_allocation - existing.target_allocation + new > 100` (400,
template `pieUpdateExceeded`); then `PieService.update` (200, or 404). -/
def update_pie (db : DB) (user_id pie_id : String)
    (data_portfolio_id : Option String) (name : Option String)
    (description : Option String) (color : Option String)
    (icon : Option String) (target_allocation : Option ℚ)
    (is_active : Option Bool) (fresh_portfolio_id : String) : Resp PieRow :=
  match resolve_portfolio db user_id data_portfolio_id fresh_portfolio_id with
  | none => { status := 403, body := none, db := db }
  | some (portfolio_id, db1) =>
    let guard_out : Option (Resp PieRow) :=
      match target_allocation with
      | none => none
      | some a =>
        match PieService.get_by_id db1 pie_id portfolio_id with
        | none => some { status := 404, body := none, db := db1 }
        | some existing =>
          let new_total :=
            PieService.get_total_allocation db1 portfolio_id -
              existing.target_allocation + a
          if new_total > 100 then
            some { status := 400, body := none, db := db1 }
          else none
    match guard_out with
    | some r => r
    | none =>
      match PieService.update db1 pie_id portfolio_id name description color
          icon target_allocation is_active with
      | .ok pie db2 => { status := 200, body := some pie, db := db2 }
      | _ => { status := 404, body := none, db := db1 }

/-- `get_pie` endpoint (`GET /pies/{pie_id}`): always scoped to the
caller's default portfolio; 404 when unreachable there. -/
def get_pie (db : DB) (user_id pie_id fresh_portfolio_id : String) :
    Resp PieRow :=
  let (portfolio_id, db1) := get_user_default_portfolio db user_id fresh_portfolio_id
  match PieService.get_by_id db1 pie_id portfolio_id with
  | none => { status := 404, body := none, db := db1 }
  | some pie => { status := 200, body := some pie, db := db1 }

/-- `delete_pie` endpoint (`DELETE /pies/{pie_id}`): always scoped to the
caller's default portfolio; 404 (rolled back) when nothing was deleted,
else 204. -/
def delete_pie (db : DB) (user_id pie_id fresh_portfolio_id : String) :
    Resp PieRow :=
  let (portfolio_id, db1) := get_user_default_portfolio db user_id fresh_portfolio_id
  let (deleted, db2) := PieService.delete db1 pie_id portfolio_id
  if ¬ deleted then { status := 404, body := none, db := db1 }
  else { status := 204, body := none, db := db2 }

/-- `reorder_pies` endpoint (`POST /pies/reorder`): always scoped to the
caller's default portfolio; `PieService.reorder` never fails, so 204. -/
def reorder_pies (db : DB) (user_id : String) (ids : List String)
    (fresh_portfolio_id : String) : Resp PieRow :=
  let (portfolio_id, db1) := get_user_default_portfolio db user_id fresh_portfolio_id
  let (_, db2) := PieService.reorder db1 portfolio_id ids
  { status := 204, body := none, db := db2 }

/-- `create_slice` endpoint (`POST /pies/{pie_id}/slices`): default
portfolio scope; `ValueError` from the guard becomes 400,
`None` becomes 404, success 201; an `IntegrityError` from the symbol
UNIQUE constraint is uncaught, surfacing as a 500 with the flush rolled
back. -/
def create_slice (db : DB) (user_id pie_id symbol : String) (target_weight : ℚ)
    (name notes : Option String) (fresh_portfolio_id fresh_slice_id : String) :
    Resp SliceRow :=
  let (portfolio_id, db1) := get_user_default_portfolio db user_id fresh_portfolio_id
  match SliceService.create db1 fresh_slice_id pie_id portfolio_id symbol
      target_weight name notes with
  | .notFound => { status := 404, body := none, db := db1 }
  | .valueError _ => { status := 400, body := none, db := db1 }
  | .integrityError => { status := 500, body := none, db := db1 }
  | .ok s db2 => { status := 201, body := some s, db := db2 }

/-- `update_slice` endpoint (`PATCH /pies/{pie_id}/slices/{slice_id}`):
default portfolio scope; 404 unless the slice is reachable and belongs to
the path's pie; then `SliceService.update` with `ValueError` as 400 and an
uncaught `IntegrityError` as 500 (rolled back). -/
def update_slice (db : DB) (user_id pie_id slice_id : String)
    (symbol : Option String) (name : Option String) (target_weight : Option ℚ)
    (notes : Option String) (is_active : Option Bool)
    (fresh_portfolio_id : String) : Resp SliceRow :=
  let (portfolio_id, db1) := get_user_default_portfolio db user_id fresh_portfolio_id
  match SliceService.get_by_id db1 slice_id portfolio_id with
  | none => { status := 404, body := none, db := db1 }
  | some existing =>
    if existing.pie_id != pie_id then { status := 404, body := none, db := db1 }
    else
      match SliceService.update db1 slice_id portfolio_id symbol name
          target_weight notes is_active with
      | .notFound => { status := 404, body := none, db := db1 }
      | .valueError _ => { status := 400, body := none, db := db1 }
      | .integrityError => { status := 500, body := none, db := db1 }
      | .ok s db2 => { status := 200, body := some s, db := db2 }

/-- `delete_slice` endpoint (`DELETE /pies/{pie_id}/slices/{slice_id}`) —
transcribed as written in `app/api/slices.py`, including the second
`service.delete(slice_id, user_id)` call that passes the *user* id where
the service expects a portfolio id: after the first delete succeeds, the
second lookup finds nothing, so the handler raises a 404 and the session
rollback undoes the first (uncommitted) delete. -/
def delete_slice (db : DB) (user_id pie_id slice_id fresh_portfolio_id : String) :
    Resp SliceRow :=
  let (portfolio_id, db1) := get_user_default_portfolio db user_id fresh_portfolio_id
  match SliceService.get_by_id db1 slice_id portfolio_id with
  | none => { status := 404, body := none, db := db1 }
  | some existing =>
    if existing.pie_id != pie_id then { status := 404, body := none, db := db1 }
    else
      let (deleted1, db2) := SliceService.delete db1 slice_id portfolio_id
      if ¬ deleted1 then { status := 404, body := none, db := db1 }
      else
        let (deleted2, db3) := SliceService.delete db2 slice_id user_id
        if ¬ deleted2 then { status := 404, body := none, db := db1 }
        else { status := 204, body := none, db := db3 }

/-- `reorder_slices` endpoint (`POST /pies/{pie_id}/slices/reorder`):
default portfolio scope; 404 when the pie is not in it, else 204. -/
def reorder_slices (db : DB) (user_id pie_id : String) (ids : List String)
    (fresh_portfolio_id : String) : Resp SliceRow :=
  let (portfolio_id, db1) := get_user_default_portfolio db user_id fresh_portfolio_id
  let (success, db2) := SliceService.reorder db1 pie_id portfolio_id ids
  if ¬ success then { status := 404, body := none, db := db1 }
  else { status := 204, body := none, db := db2 }

end Api

/-- Modelled from the spec (§4.1), for comparison with the code: the
update-guard's claimed current total, "sum(active_sibling.percentage)
excluding the entity being updated", here for a slice. -/
def specActiveSumExcluding (db : DB) (s : SliceRow) : ℚ :=
  ((db.slices.filter fun t =>
      t.pie_id == s.pie_id && t.is_active && !(t.id == s.id)).map
    fun t => t.target_weight).sum

/-- The §3/§8 allocation invariant over every sibling scope: active pies of
any portfolio sum to at most 100, active slices of any pie sum to at most
100. -/
def allocation_invariant (db : DB) : Prop :=
  (∀ fid : String, PieService.get_total_allocation db fid ≤ 100) ∧
  (∀ pid : String, SliceService.get_total_weight db pid ≤ 100)

/-! ## Helper definitions and lemmas -/

/-- Contribution of one slice row to `get_total_weight db pid`. -/
def slice_contrib (pid : String) (s : SliceRow) : ℚ :=
  if s.pie_id == pid && s.is_active then s.target_weight else 0

/-- Contribution of one pie row to `get_total_allocation db fid`. -/
def pie_contrib (fid : String) (p : PieRow) : ℚ :=
  if p.portfolio_id == fid && p.is_active then p.target_allocation else 0

/-- 0-based index of the first occurrence of `x` in a list of ids. -/
def idx_of (x : String) : List String → Nat
  | [] => 0
  | y :: ys => if y == x then 0 else idx_of x ys + 1

/-- Boolean membership in a list of ids. -/
def mem_b (x : String) : List String → Bool
  | [] => false
  | y :: ys => y == x || mem_b x ys

lemma sum_filter_map_eq {α : Type} (p : α → Bool) (w : α → ℚ) (l : List α) :
    ((l.filter p).map w).sum = (l.map fun a => if p a then w a else 0).sum := by
  induction l with
  | nil => rfl
  | cons a l ih =>
    by_cases h : p a = true
    · simp [List.filter_cons, h, ih]
    · simp [List.filter_cons, h, ih]

lemma get_total_weight_eq_contrib (db : DB) (pid : String) :
    SliceService.get_total_weight db pid = (db.slices.map (slice_contrib pid)).sum := by
  unfold SliceService.get_total_weight slice_contrib
  exact sum_filter_map_eq _ _ _

lemma get_total_allocation_eq_contrib (db : DB) (fid : String) :
    PieService.get_total_allocation db fid = (db.pies.map (pie_contrib fid)).sum := by
  unfold PieService.get_total_allocation PieService.get_all_by_portfolio
  have hperm :
      ((db.pies.filter fun p =>
          p.portfolio_id == fid && (false || p.is_active)).insertionSort
        fun a b => a.display_order ≤ b.display_order).Perm
        (db.pies.filter fun p => p.portfolio_id == fid && (false || p.is_active)) :=
    List.perm_insertionSort _ _
  rw [(hperm.map fun p => p.target_allocation).sum_eq]
  have : (fun (p : PieRow) => p.portfolio_id == fid && (false || p.is_active)) =
      fun p => p.portfolio_id == fid && p.is_active := by
    funext p; simp
  rw [this]
  exact sum_filter_map_eq _ _ _

lemma sum_map_update_of_nodup {α : Type} (key : α → String) (g : α → ℚ) (f : α → α)
    (l : List α) (hnd : (l.map key).Nodup) (s : α) (hs : s ∈ l) :
    ((l.map fun a => if key a == key s then f a else a).map g).sum
      = (l.map g).sum - g s + g (f s) := by
  induction l with
  | nil => cases hs
  | cons a l ih =>
    rw [List.map_cons, List.nodup_cons] at hnd
    rcases List.mem_cons.mp hs with rfl | hmem
    · have htail : (l.map fun t => if key t == key s then f t else t) = l := by
        conv_rhs => rw [← List.map_id l]
        apply List.map_congr_left
        intro t ht
        have hk : ¬ key t = key s := fun hk => hnd.1 (hk ▸ List.mem_map_of_mem key ht)
        simp [hk]
      simp only [List.map_cons, htail, beq_self_eq_true, if_true, List.sum_cons]
      ring
    · have hk : ¬ key a = key s := fun hkeq => hnd.1 (hkeq ▸ List.mem_map_of_mem key hmem)
      have hbeq : (key a == key s) = false := by simpa using hk
      simp only [List.map_cons, hbeq, Bool.false_eq_true, if_false, List.sum_cons,
        ih hnd.2 hmem]
      ring

lemma verify_iff (db : DB) (pie_id fid : String) :
    SliceService.verify_pie_ownership db pie_id fid = true ↔
      ∃ p ∈ db.pies, p.id = pie_id ∧ p.portfolio_id = fid := by
  unfold SliceService.verify_pie_ownership
  rw [List.any_eq_true]
  constructor
  · rintro ⟨p, hp, hcond⟩
    simp only [Bool.and_eq_true, beq_iff_eq] at hcond
    exact ⟨p, hp, hcond.1, hcond.2⟩
  · rintro ⟨p, hp, h1, h2⟩
    exact ⟨p, hp, by simp [h1, h2]⟩

lemma slice_get_by_id_some {db : DB} {sid fid : String} {s : SliceRow}
    (h : SliceService.get_by_id db sid fid = some s) :
    s ∈ db.slices ∧ s.id = sid ∧
      SliceService.verify_pie_ownership db s.pie_id fid = true := by
  have hmem := List.mem_of_find?_eq_some h
  have hcond := List.find?_some h
  simp only [Bool.and_eq_true, beq_iff_eq] at hcond
  exact ⟨hmem, hcond.1, hcond.2⟩

lemma pie_get_by_id_some {db : DB} {pid fid : String} {p : PieRow}
    (h : PieService.get_by_id db pid fid = some p) :
    p ∈ db.pies ∧ p.id = pid ∧ p.portfolio_id = fid := by
  have hmem := List.mem_of_find?_eq_some h
  have hcond := List.find?_some h
  simp only [Bool.and_eq_true, beq_iff_eq] at hcond
  exact ⟨hmem, hcond.1, hcond.2⟩

lemma max_order_of_spec (l : List Int) (hne : l ≠ []) :
    ∃ m, max_order_of l = some m ∧ m ∈ l ∧ ∀ x ∈ l, x ≤ m := by
  induction l with
  | nil => cases hne rfl
  | cons a l ih =>
    cases l with
    | nil =>
      refine ⟨a, rfl, List.mem_singleton_self a, ?_⟩
      intro x hx
      rw [List.mem_singleton.mp hx]
    | cons b l' =>
      rcases ih (by simp) with ⟨m, hm, hmem, hle⟩
      refine ⟨max a m, ?_, ?_, ?_⟩
      · unfold max_order_of
        rw [hm]
      · rcases max_cases a m with ⟨heq, _⟩ | ⟨heq, _⟩
        · rw [heq]; exact List.mem_cons_self _ _
        · rw [heq]; exact List.mem_cons_of_mem _ hmem
      · intro x hx
        rcases List.mem_cons.mp hx with rfl | hx'
        · exact le_max_left _ _
        · exact le_trans (hle x hx') (le_max_right _ _)

lemma mem_b_iff (x : String) (l : List String) : mem_b x l = true ↔ x ∈ l := by
  induction l with
  | nil => simp [mem_b]
  | cons y ys ih =>
    simp only [mem_b, Bool.or_eq_true, beq_iff_eq, ih, List.mem_cons]
    tauto

lemma mem_b_false_of_not_mem {x : String} {l : List String} (h : x ∉ l) :
    mem_b x l = false := by
  revert h
  rw [← mem_b_iff]
  cases mem_b x l <;> simp

lemma mem_b_cons (x y : String) (ys : List String) :
    mem_b x (y :: ys) = (y == x || mem_b x ys) := rfl

lemma idx_of_cons (x y : String) (ys : List String) :
    idx_of x (y :: ys) = if y == x then 0 else idx_of x ys + 1 := rfl

lemma reorder_loop_eq {α : Type} (gid : α → String) (inS : α → Bool)
    (set_ord : Int → α → α) (hgid : ∀ k a, gid (set_ord k a) = gid a)
    (hinS : ∀ k a, inS (set_ord k a) = inS a) :
    ∀ (ids : List String), ids.Nodup → ∀ (k : Int) (l : List α),
      reorder_loop (fun i a => gid a == i && inS a) set_ord ids k l =
        l.map fun a =>
          if mem_b (gid a) ids && inS a then
            set_ord (k + (idx_of (gid a) ids : Int)) a
          else a := by
  intro ids
  induction ids with
  | nil =>
    intro _ k l
    unfold reorder_loop
    simp [mem_b]
  | cons i0 rest ih =>
    intro hnd k l
    rw [List.nodup_cons] at hnd
    unfold reorder_loop
    rw [ih hnd.2 (k + 1), List.map_map]
    apply List.map_congr_left
    intro a _
    simp only [Function.comp]
    cases hin : inS a with
    | false =>
      simp [hin, mem_b_cons]
    | true =>
      by_cases hid : gid a = i0
      · have hni : mem_b i0 rest = false := mem_b_false_of_not_mem hnd.1
        simp only [hid, beq_self_eq_true, hin, Bool.and_true, if_true, hgid, hinS,
          hni, Bool.false_and, Bool.false_eq_true, if_false, mem_b_cons,
          Bool.true_or, idx_of_cons, Nat.cast_zero, add_zero]
      · have hb : (gid a == i0) = false := by simpa using hid
        have hb' : (i0 == gid a) = false := by
          simp only [beq_eq_false_iff_ne, ne_eq]
          exact fun he => hid he.symm
        simp only [hb, Bool.false_and, Bool.false_eq_true, if_false, mem_b_cons,
          hb', Bool.false_or, idx_of_cons, hin, Bool.and_true]
        by_cases hm : mem_b (gid a) rest = true
        · simp only [hm, if_true]
          congr 1
          push_cast
          ring
        · have hm' : mem_b (gid a) rest = false := by
            revert hm; cases mem_b (gid a) rest <;> simp
          simp [hm']

lemma resolver_preserves (db : DB) (u fresh : String) :
    (Api.get_user_default_portfolio db u fresh).2.pies = db.pies ∧
      (Api.get_user_default_portfolio db u fresh).2.slices = db.slices := by
  unfold Api.get_user_default_portfolio
  rcases hf : (PortfolioService.get_user_portfolios db u).find?
      fun p => p.name == "Default Portfolio" with _ | p
  · simp only [hf, PortfolioService.create_portfolio]
    exact ⟨trivial, trivial⟩
  · simp only [hf]
    exact ⟨trivial, trivial⟩

lemma get_total_weight_congr {db1 db2 : DB} (h : db1.slices = db2.slices)
    (pid : String) :
    SliceService.get_total_weight db1 pid = SliceService.get_total_weight db2 pid := by
  unfold SliceService.get_total_weight
  rw [h]

lemma get_total_allocation_congr {db1 db2 : DB} (h : db1.pies = db2.pies)
    (fid : String) :
    PieService.get_total_allocation db1 fid =
      PieService.get_total_allocation db2 fid := by
  rw [get_total_allocation_eq_contrib, get_total_allocation_eq_contrib, h]

lemma allocation_invariant_congr {db1 db2 : DB} (hp : db1.pies = db2.pies)
    (hs : db1.slices = db2.slices) (h : allocation_invariant db2) :
    allocation_invariant db1 := by
  constructor
  · intro fid
    rw [get_total_allocation_congr hp]
    exact h.1 fid
  · intro pid
    rw [get_total_weight_congr hs]
    exact h.2 pid

lemma allocation_invariant_intro (db : DB)
    (hp : ∀ fid ∈ db.pies.map fun p => p.portfolio_id,
      PieService.get_total_allocation db fid ≤ 100)
    (hs : ∀ pid ∈ db.slices.map fun s => s.pie_id,
      SliceService.get_total_weight db pid ≤ 100) :
    allocation_invariant db := by
  constructor
  · intro fid
    by_cases hmem : fid ∈ db.pies.map fun p => p.portfolio_id
    · exact hp fid hmem
    · rw [get_total_allocation_eq_contrib]
      have : ∀ x ∈ db.pies.map (pie_contrib fid), x = 0 := by
        intro x hx
        rcases List.mem_map.mp hx with ⟨p, hpmem, rfl⟩
        unfold pie_contrib
        have : ¬ p.portfolio_id = fid := by
          intro he
          exact hmem (he ▸ List.mem_map_of_mem _ hpmem)
        simp [this]
      rw [List.sum_eq_zero this]
      norm_num
  · intro pid
    by_cases hmem : pid ∈ db.slices.map fun s => s.pie_id
    · exact hs pid hmem
    · rw [get_total_weight_eq_contrib]
      have : ∀ x ∈ db.slices.map (slice_contrib pid), x = 0 := by
        intro x hx
        rcases List.mem_map.mp hx with ⟨s, hsmem, rfl⟩
        unfold slice_contrib
        have : ¬ s.pie_id = pid := by
          intro he
          exact hmem (he ▸ List.mem_map_of_mem _ hsmem)
        simp [this]
      rw [List.sum_eq_zero this]
      norm_num

lemma slice_create_ok_elim {db : DB} {fresh pie_id fid sym : String} {w : ℚ}
    {nm nts : Option String} {s : SliceRow} {db' : DB}
    (h : SliceService.create db fresh pie_id fid sym w nm nts = .ok s db') :
    SliceService.verify_pie_ownership db pie_id fid = true ∧
    ¬ SliceService.get_total_weight db pie_id + w > 100 ∧
    s = { id := fresh, pie_id := pie_id, symbol := strUpper sym, name := nm,
          target_weight := w,
          display_order := (max_order_of ((db.slices.filter fun t =>
              t.pie_id == pie_id).map fun t => t.display_order)).getD 0 + 1,
          notes := nts, is_active := true } ∧
    db' = { db with slices := db.slices ++ [s] } := by
  simp only [SliceService.create] at h
  split at h
  · exact absurd h (by simp)
  · split at h
    · exact absurd h (by simp)
    · split at h
      · exact absurd h (by simp)
      · simp only [SvcResult.ok.injEq] at h
        rename_i hv hg _
        refine ⟨not_not.mp hv, hg, h.1.symm, ?_⟩
        rw [← h.2, h.1]

lemma slice_create_valueError_iff (db : DB) (fresh pie_id fid sym : String)
    (w : ℚ) (nm nts : Option String) (e : DomainError) :
    SliceService.create db fresh pie_id fid sym w nm nts = .valueError e ↔
      SliceService.verify_pie_ownership db pie_id fid = true ∧
      SliceService.get_total_weight db pie_id + w > 100 ∧
      e = .sliceCreateExceeded (SliceService.get_total_weight db pie_id) w
            (SliceService.get_total_weight db pie_id + w) := by
  simp only [SliceService.create]
  constructor
  · intro h
    split at h
    · exact absurd h (by simp)
    · split at h
      · rename_i hv hg
        simp only [SvcResult.valueError.injEq] at h
        exact ⟨not_not.mp hv, hg, h.symm⟩
      · split at h
        · exact absurd h (by simp)
        · exact absurd h (by simp)
  · rintro ⟨hv, hg, rfl⟩
    rw [if_neg (by simpa using hv), if_pos hg]

lemma slice_update_ok_elim {db : DB} {sid fid : String}
    {symA : Option String} {nmA : Option String} {wA : Option ℚ}
    {ntsA : Option String} {aA : Option Bool} {s' : SliceRow} {db' : DB}
    (h : SliceService.update db sid fid symA nmA wA ntsA aA = .ok s' db') :
    ∃ s, SliceService.get_by_id db sid fid = some s ∧
      SliceService.update_guard_err db s wA = none ∧
      s' = SliceService.apply_update s symA nmA wA ntsA aA ∧
      SliceService.update_dup db s.id s' = false ∧
      db' = { db with
        slices := db.slices.map fun t => if t.id == s.id then s' else t } := by
  simp only [SliceService.update] at h
  split at h
  · exact absurd h (by simp)
  · rename_i s hfind
    split at h
    · exact absurd h (by simp)
    · rename_i hguard
      split at h
      · exact absurd h (by simp)
      · rename_i hdup
        simp only [SvcResult.ok.injEq] at h
        refine ⟨s, hfind, hguard, h.1.symm, ?_, ?_⟩
        · rw [← h.1]
          simpa using hdup
        · rw [← h.2, h.1]

lemma slice_update_valueError_iff (db : DB) (sid fid : String)
    (symA : Option String) (nmA : Option String) (wA : Option ℚ)
    (ntsA : Option String) (aA : Option Bool) (e : DomainError) :
    SliceService.update db sid fid symA nmA wA ntsA aA = .valueError e ↔
      ∃ s, SliceService.get_by_id db sid fid = some s ∧
        SliceService.update_guard_err db s wA = some e := by
  constructor
  · intro h
    simp only [SliceService.update] at h
    split at h
    · exact absurd h (by simp)
    · rename_i s hfind
      split at h
      · rename_i e' hguard
        simp only [SvcResult.valueError.injEq] at h
        exact ⟨s, hfind, h ▸ hguard⟩
      · split at h
        · exact absurd h (by simp)
        · exact absurd h (by simp)
  · rintro ⟨s, hfind, hguard⟩
    simp only [SliceService.update, hfind, hguard]

lemma update_guard_err_some_iff (db : DB) (s : SliceRow) (w : ℚ)
    (e : DomainError) :
    SliceService.update_guard_err db s (some w) = some e ↔
      w ≠ s.target_weight ∧
      SliceService.get_total_weight db s.pie_id - s.target_weight + w > 100 ∧
      e = .sliceUpdateExceeded
            (SliceService.get_total_weight db s.pie_id - s.target_weight + w) := by
  simp only [SliceService.update_guard_err]
  by_cases hne : w = s.target_weight
  · simp [hne]
  · rw [if_pos hne]
    by_cases hgt :
        SliceService.get_total_weight db s.pie_id - s.target_weight + w > 100
    · rw [if_pos hgt]
      simp only [Option.some_inj]
      constructor
      · intro h
        exact ⟨hne, hgt, h.symm⟩
      · rintro ⟨_, _, rfl⟩
        rfl
    · rw [if_neg hgt]
      simp [hgt]

lemma update_guard_err_none (db : DB) (s : SliceRow) :
    SliceService.update_guard_err db s none = none := rfl

lemma update_guard_err_eq_weight (db : DB) (s : SliceRow) :
    SliceService.update_guard_err db s (some s.target_weight) = none := by
  simp [SliceService.update_guard_err]

/-! ## Concrete fixtures used by counterexamples and witnesses -/

/-- A user `u` whose default portfolio `F` already exists. -/
def fxPortfolio : PortfolioRow :=
  { id := "F", user_id := "u", name := "Default Portfolio",
    description := some "Default portfolio for pies", account_type := none,
    ibkr_account_id := none, auto_invest_enabled := false }

/-- A pie `P` inside portfolio `F`. -/
def fxPie : PieRow :=
  { id := "P", portfolio_id := "F", name := "Tech", description := none,
    color := "#3B82F6", icon := none, target_allocation := 10,
    display_order := 1, is_active := true }

/-- State with pie `P` holding no slices at all. -/
def fxDbEmptyPie : DB :=
  { portfolios := [fxPortfolio], pies := [fxPie], slices := [] }

/-- The slice produced by creating `MSFT`, weight 10, in the empty pie. -/
def fxNewSlice : SliceRow :=
  { id := "s1", pie_id := "P", symbol := "MSFT", name := none,
    target_weight := 10, display_order := 1, notes := none, is_active := true }

/-- C3, counterexample.  The claim says a create into an *empty* sibling
collection assigns display order 0; the code computes
`(scalar_one_or_none() or 0) + 1`, which is 1 on an empty collection:
creating the first slice of pie `P` yields `display_order = 1 ≠ 0`. -/
theorem C3_counterexample :
    SliceService.create fxDbEmptyPie "s1" "P" "F" "MSFT" 10 none none =
      .ok fxNewSlice { fxDbEmptyPie with slices := [fxNewSlice] } ∧
    fxNewSlice.display_order ≠ 0 := by
  have hsym : strUpper "MSFT" = "MSFT" := by decide
  constructor
  · norm_num [SliceService.create, SliceService.verify_pie_ownership,
      SliceService.get_total_weight, fxDbEmptyPie, fxPie, fxPortfolio,
      max_order_of, hsym, fxNewSlice]
  · decide

/-- An existing slice `m` (MSFT, weight 10, order 1) in pie `P`. -/
def fxSliceM : SliceRow :=
  { id := "m", pie_id := "P", symbol := "MSFT", name := none,
    target_weight := 10, display_order := 1, notes := none, is_active := true }

/-- State with pie `P` holding exactly slice `m`. -/
def fxDbOneSlice : DB :=
  { portfolios := [fxPortfolio], pies := [fxPie], slices := [fxSliceM] }

/-- The slice produced by creating `NFLX`, weight 20, next to `m`. -/
def fxNflx : SliceRow :=
  { id := "s2", pie_id := "P", symbol := "NFLX", name := none,
    target_weight := 20, display_order := 2, notes := none, is_active := true }

/-- C3, amended.  On create the new entity's display order is
`(max existing sibling order or 0) + 1` — that is, `1 + max(existing
sibling display_order)` when the sibling collection is non-empty, but `1`
(not 0, as claimed) when the collection is empty; this holds for slice
creation within a pie and pie creation within a portfolio. -/
theorem C3_amended :
    (∀ db fresh pie_id fid sym w nm nts s db',
        SliceService.create db fresh pie_id fid sym w nm nts = .ok s db' →
        (((db.slices.filter fun t => t.pie_id == pie_id) = [] →
            s.display_order = 1) ∧
          ((db.slices.filter fun t => t.pie_id == pie_id) ≠ [] →
            ∃ m, m ∈ (db.slices.filter fun t => t.pie_id == pie_id).map
                  (fun t => t.display_order) ∧
              (∀ x ∈ (db.slices.filter fun t => t.pie_id == pie_id).map
                  (fun t => t.display_order), x ≤ m) ∧
              s.display_order = 1 + m))) ∧
    (∀ db fresh fid nm desc col icon a,
        (((db.pies.filter fun q => q.portfolio_id == fid) = [] →
            (PieService.create db fresh fid nm desc col icon a).1.display_order
              = 1) ∧
          ((db.pies.filter fun q => q.portfolio_id == fid) ≠ [] →
            ∃ m, m ∈ (db.pies.filter fun q => q.portfolio_id == fid).map
                  (fun q => q.display_order) ∧
              (∀ x ∈ (db.pies.filter fun q => q.portfolio_id == fid).map
                  (fun q => q.display_order), x ≤ m) ∧
              (PieService.create db fresh fid nm desc col icon a).1.display_order
                = 1 + m))) := by
  constructor
  · intro db fresh pie_id fid sym w nm nts s db' h
    obtain ⟨_, _, hs, _⟩ := slice_create_ok_elim h
    constructor
    · intro hempty
      rw [hs]
      simp [hempty, max_order_of]
    · intro hne
      have hmapne : (db.slices.filter fun t => t.pie_id == pie_id).map
          (fun t => t.display_order) ≠ [] := by
        simpa using hne
      rcases max_order_of_spec _ hmapne with ⟨m, hm, hmem, hle⟩
      refine ⟨m, hmem, hle, ?_⟩
      rw [hs]
      simp only [hm, Option.getD_some]
      omega
  · intro db fresh fid nm desc col icon a
    constructor
    · intro hempty
      simp [PieService.create, hempty, max_order_of]
    · intro hne
      have hmapne : (db.pies.filter fun q => q.portfolio_id == fid).map
          (fun q => q.display_order) ≠ [] := by
        simpa using hne
      rcases max_order_of_spec _ hmapne with ⟨m, hm, hmem, hle⟩
      refine ⟨m, hmem, hle, ?_⟩
      simp only [PieService.create, hm, Option.getD_some]
      omega

/-- C3 witness: in the concrete states, the first slice of empty pie `P`
gets order 1, and `NFLX` created next to slice `m` (order 1) gets order
`1 + 1`. -/
theorem C3_witness :
    fxNewSlice.display_order = 1 ∧ fxNflx.display_order = 1 + 1 := by
  have hsym : strUpper "MSFT" = "MSFT" := by decide
  have hsym2 : strUpper "NFLX" = "NFLX" := by decide
  have hcreate1 : SliceService.create fxDbEmptyPie "s1" "P" "F" "MSFT" 10
      none none = .ok fxNewSlice { fxDbEmptyPie with slices := [fxNewSlice] } := by
    norm_num [SliceService.create, SliceService.verify_pie_ownership,
      SliceService.get_total_weight, fxDbEmptyPie, fxPie, fxPortfolio,
      max_order_of, hsym, fxNewSlice]
  have hms : ("MSFT" == "NFLX") = false := by decide
  have hcreate2 : SliceService.create fxDbOneSlice "s2" "P" "F" "NFLX" 20
      none none =
      .ok fxNflx { fxDbOneSlice with slices := [fxSliceM, fxNflx] } := by
    norm_num [SliceService.create, SliceService.verify_pie_ownership,
      SliceService.get_total_weight, fxDbOneSlice, fxPie, fxPortfolio,
      fxSliceM, max_order_of, hsym2, hms, fxNflx]
  constructor
  · exact (C3_amended.1 fxDbEmptyPie "s1" "P" "F" "MSFT" 10 none none
      fxNewSlice _ hcreate1).1 (by decide)
  · rcases (C3_amended.1 fxDbOneSlice "s2" "P" "F" "NFLX" 20 none none
      fxNflx _ hcreate2).2 (by decide) with ⟨m, hm, _, hd⟩
    have : m = 1 := by
      simpa [fxDbOneSlice, fxSliceM] using hm
    rw [hd, this]

/-- C4.  Reorder semantics, both scopes: the batch always succeeds (pies:
unconditionally; slices: whenever the scope pie belongs to the portfolio,
and a failed scope check is a no-op returning `false`); each listed id
that belongs to the scope gets `display_order` = its 0-based index in the
list; listed ids not owned by the scope and siblings omitted from the list
are left untouched. -/
theorem C4_reorder :
    (∀ (db : DB) (fid : String) (ids : List String), ids.Nodup →
        PieService.reorder db fid ids =
          (true,
            { db with
              pies := db.pies.map fun p =>
                if mem_b p.id ids && (p.portfolio_id == fid) then
                  { p with display_order := (idx_of p.id ids : Int) }
                else p })) ∧
    (∀ (db : DB) (pie_id fid : String) (ids : List String), ids.Nodup →
        SliceService.verify_pie_ownership db pie_id fid = true →
        SliceService.reorder db pie_id fid ids =
          (true,
            { db with
              slices := db.slices.map fun s =>
                if mem_b s.id ids && (s.pie_id == pie_id) then
                  { s with display_order := (idx_of s.id ids : Int) }
                else s })) ∧
    (∀ (db : DB) (pie_id fid : String) (ids : List String),
        SliceService.verify_pie_ownership db pie_id fid = false →
        SliceService.reorder db pie_id fid ids = (false, db)) := by
  refine ⟨?_, ?_, ?_⟩
  · intro db fid ids hnd
    unfold PieService.reorder
    rw [reorder_loop_eq (fun p => p.id) (fun p => p.portfolio_id == fid)
      (fun k p => { p with display_order := k }) (fun _ _ => rfl)
      (fun _ _ => rfl) ids hnd 0 db.pies]
    simp [zero_add]
  · intro db pie_id fid ids hnd hv
    unfold SliceService.reorder
    rw [if_neg (by simp [hv])]
    rw [reorder_loop_eq (fun s => s.id) (fun s => s.pie_id == pie_id)
      (fun k s => { s with display_order := k }) (fun _ _ => rfl)
      (fun _ _ => rfl) ids hnd 0 db.slices]
    simp [zero_add]
  · intro db pie_id fid ids hv
    unfold SliceService.reorder
    rw [if_pos (by simp [hv])]

/-- Slice `a` of pie `P`, display order 0. -/
def fxA : SliceRow :=
  { id := "a", pie_id := "P", symbol := "AAA", name := none,
    target_weight := 10, display_order := 0, notes := none, is_active := true }

/-- Slice `b` of pie `P`, display order 1. -/
def fxB : SliceRow :=
  { id := "b", pie_id := "P", symbol := "BBB", name := none,
    target_weight := 10, display_order := 1, notes := none, is_active := true }

/-- Slice `c` of pie `P`, display order 2. -/
def fxC : SliceRow :=
  { id := "c", pie_id := "P", symbol := "CCC", name := none,
    target_weight := 10, display_order := 2, notes := none, is_active := true }

/-- State with the three slices `a`, `b`, `c` in pie `P`. -/
def fxDbThree : DB :=
  { portfolios := [fxPortfolio], pies := [fxPie], slices := [fxA, fxB, fxC] }

/-- C4 witness: reordering siblings `{a, b, c}` with the list `[c, a, b]`
succeeds and yields orders `a = 1`, `b = 2`, `c = 0`. -/
theorem C4_reorder_witness :
    SliceService.reorder fxDbThree "P" "F" ["c", "a", "b"] =
      (true,
        { fxDbThree with
          slices := [{ fxA with display_order := 1 },
            { fxB with display_order := 2 },
            { fxC with display_order := 0 }] }) := by
  have h := C4_reorder.2.1 fxDbThree "P" "F" ["c", "a", "b"] (by decide)
    (by decide)
  rw [h]
  norm_num [fxDbThree, fxA, fxB, fxC, mem_b, idx_of]
  decide

/-- The portfolio row inserted by the default-portfolio resolver. -/
def default_portfolio_row (u fresh : String) : PortfolioRow :=
  { id := fresh, user_id := u, name := "Default Portfolio",
    description := some "Default portfolio for pies", account_type := none,
    ibkr_account_id := none, auto_invest_enabled := false }

/-- C5.  Default-portfolio resolution is idempotent: for a user with no
portfolios, two successive calls return the same portfolio id (the first
call's fresh id), the second call does not change the state, and exactly
one portfolio named "Default Portfolio" (exact, case-sensitive match) is
owned by the user afterwards. -/
theorem C5_default_portfolio_idempotent (db : DB) (u n1 n2 : String)
    (hnone : db.portfolios.filter (fun p => p.user_id == u) = []) :
    (Api.get_user_default_portfolio
        (Api.get_user_default_portfolio db u n1).2 u n2).1 =
      (Api.get_user_default_portfolio db u n1).1 ∧
    (Api.get_user_default_portfolio
        (Api.get_user_default_portfolio db u n1).2 u n2).2 =
      (Api.get_user_default_portfolio db u n1).2 ∧
    ((Api.get_user_default_portfolio db u n1).2.portfolios.filter fun p =>
        p.user_id == u && p.name == "Default Portfolio").length = 1 := by
  have husers : PortfolioService.get_user_portfolios db u = [] := by
    unfold PortfolioService.get_user_portfolios
    rw [hnone]
    rfl
  have h1 : Api.get_user_default_portfolio db u n1 =
      (n1, { db with
        portfolios := db.portfolios ++ [default_portfolio_row u n1] }) := by
    unfold Api.get_user_default_portfolio
    rw [husers]
    simp [PortfolioService.create_portfolio, default_portfolio_row]
  have husers2 : PortfolioService.get_user_portfolios
      { db with portfolios := db.portfolios ++ [default_portfolio_row u n1] } u
        = [default_portfolio_row u n1] := by
    unfold PortfolioService.get_user_portfolios
    rw [List.filter_append, hnone]
    simp [default_portfolio_row, List.insertionSort, List.orderedInsert]
  have h2 : Api.get_user_default_portfolio
      { db with portfolios := db.portfolios ++ [default_portfolio_row u n1] } u
        n2 =
      (n1, { db with
        portfolios := db.portfolios ++ [default_portfolio_row u n1] }) := by
    unfold Api.get_user_default_portfolio
    rw [husers2]
    simp [default_portfolio_row]
  rw [h1]
  refine ⟨?_, ?_, ?_⟩
  · rw [h2]
  · rw [h2]
  · have hrest : db.portfolios.filter
        (fun p => p.user_id == u && p.name == "Default Portfolio") = [] := by
      rw [List.filter_eq_nil_iff]
      intro p hp
      have := List.filter_eq_nil_iff.mp hnone p hp
      simp only [Bool.and_eq_true, not_and]
      intro hu
      exact absurd hu this
    simp [List.filter_append, hrest, default_portfolio_row]

/-- State with no rows at all. -/
def fxDbNil : DB := { portfolios := [], pies := [], slices := [] }

/-- C5 witness: from the empty state, both calls return `n1`, the second
call is a no-op, and exactly one "Default Portfolio" row exists. -/
theorem C5_default_portfolio_idempotent_witness :
    (Api.get_user_default_portfolio
        (Api.get_user_default_portfolio fxDbNil "u" "n1").2 "u" "n2").1 =
      (Api.get_user_default_portfolio fxDbNil "u" "n1").1 ∧
    (Api.get_user_default_portfolio
        (Api.get_user_default_portfolio fxDbNil "u" "n1").2 "u" "n2").2 =
      (Api.get_user_default_portfolio fxDbNil "u" "n1").2 ∧
    ((Api.get_user_default_portfolio fxDbNil "u" "n1").2.portfolios.filter
        fun p => p.user_id == "u" && p.name == "Default Portfolio").length
      = 1 :=
  C5_default_portfolio_idempotent fxDbNil "u" "n1" "n2" (by decide)

/-- C7.  Strict ownership-chain scoping: a pie lookup succeeds only for the
supplied portfolio (an existing pie of another portfolio is `None` /
excluded from lists — there is no forbidden outcome in these paths), and
every slice operation checks the pie-in-portfolio chain first: a
successful slice lookup implies its pie belongs to the supplied
portfolio, and with the chain broken `get_all_by_pie` returns `[]`,
`create` returns `None`, and `reorder` fails leaving the state
unchanged — a slice id alone never grants access. -/
theorem C7_ownership_scoping :
    (∀ (db : DB) (pid fid : String) (p : PieRow),
        PieService.get_by_id db pid fid = some p →
        p.id = pid ∧ p.portfolio_id = fid) ∧
    (∀ (db : DB) (fid : String) (inc : Bool) (p : PieRow),
        p ∈ PieService.get_all_by_portfolio db fid inc →
        p.portfolio_id = fid) ∧
    (∀ (db : DB) (sid fid : String) (s : SliceRow),
        SliceService.get_by_id db sid fid = some s →
        s.id = sid ∧ ∃ q ∈ db.pies, q.id = s.pie_id ∧ q.portfolio_id = fid) ∧
    (∀ (db : DB) (pie_id fid : String) (inc : Bool),
        SliceService.verify_pie_ownership db pie_id fid = false →
        SliceService.get_all_by_pie db pie_id fid inc = []) ∧
    (∀ (db : DB) (fresh pie_id fid sym : String) (w : ℚ)
        (nm nts : Option String),
        SliceService.verify_pie_ownership db pie_id fid = false →
        SliceService.create db fresh pie_id fid sym w nm nts = .notFound) ∧
    (∀ (db : DB) (pie_id fid : String) (ids : List String),
        SliceService.verify_pie_ownership db pie_id fid = false →
        SliceService.reorder db pie_id fid ids = (false, db)) := by
  refine ⟨?_, ?_, ?_, ?_, ?_, ?_⟩
  · intro db pid fid p h
    exact (pie_get_by_id_some h).2
  · intro db fid inc p h
    unfold PieService.get_all_by_portfolio at h
    have hmem := (List.mem_insertionSort _).mp h
    have hcond := (List.mem_filter.mp hmem).2
    simp only [Bool.and_eq_true, beq_iff_eq] at hcond
    exact hcond.1
  · intro db sid fid s h
    obtain ⟨_, hid, hv⟩ := slice_get_by_id_some h
    exact ⟨hid, (verify_iff db s.pie_id fid).mp hv⟩
  · intro db pie_id fid inc hv
    unfold SliceService.get_all_by_pie
    rw [if_pos (by simp [hv])]
  · intro db fresh pie_id fid sym w nm nts hv
    unfold SliceService.create
    rw [if_pos (by simp [hv])]
  · intro db pie_id fid ids hv
    unfold SliceService.reorder
    rw [if_pos (by simp [hv])]

/-- C7 witness: concrete successful lookups carry the right scope, and the
slice operations against a pie id (`X`) outside portfolio `F` are
not-found no-ops. -/
theorem C7_ownership_scoping_witness :
    (fxPie.id = "P" ∧ fxPie.portfolio_id = "F") ∧
    fxSliceM.id = "m" ∧
    SliceService.get_all_by_pie fxDbOneSlice "X" "F" false = [] ∧
    SliceService.create fxDbOneSlice "z" "X" "F" "ZZZ" 10 none none
      = .notFound ∧
    SliceService.reorder fxDbOneSlice "X" "F" ["m"] = (false, fxDbOneSlice) := by
  have hget : PieService.get_by_id fxDbOneSlice "P" "F" = some fxPie := by
    simp [PieService.get_by_id, fxDbOneSlice, List.find?, fxPie]
  have hgets : SliceService.get_by_id fxDbOneSlice "m" "F" = some fxSliceM := by
    simp [SliceService.get_by_id, fxDbOneSlice, List.find?, fxSliceM,
      SliceService.verify_pie_ownership, fxPie]
  have hv : SliceService.verify_pie_ownership fxDbOneSlice "X" "F" = false := by
    decide
  exact ⟨C7_ownership_scoping.1 fxDbOneSlice "P" "F" fxPie hget,
    (C7_ownership_scoping.2.2.1 fxDbOneSlice "m" "F" fxSliceM hgets).1,
    C7_ownership_scoping.2.2.2.1 fxDbOneSlice "X" "F" false hv,
    C7_ownership_scoping.2.2.2.2.1 fxDbOneSlice "z" "X" "F" "ZZZ" 10 none none hv,
    C7_ownership_scoping.2.2.2.2.2 fxDbOneSlice "X" "F" ["m"] hv⟩

lemma fx_resolver (f : String) (db : DB) (hdb : db.portfolios = [fxPortfolio]) :
    Api.get_user_default_portfolio db "u" f = ("F", db) := by
  unfold Api.get_user_default_portfolio PortfolioService.get_user_portfolios
  rw [hdb]
  simp [fxPortfolio, List.insertionSort, List.orderedInsert, List.find?]

/-- C9, counterexample.  The claim says a duplicate (case-insensitively
equal) symbol "fails as a validation failure reported to the caller with
field context".  In the code neither `SliceService.create` nor `update`
checks symbol uniqueness; the duplicate trips the database's
`(pie_id, symbol)` UNIQUE constraint at flush, an `IntegrityError` that no
caller catches: creating `msft` next to the stored `MSFT` yields
`integrityError` (not `valueError`) and the endpoint answers 500, not a
400 validation response. -/
theorem C9_counterexample :
    SliceService.create fxDbOneSlice "s9" "P" "F" "msft" 20 none none =
      .integrityError ∧
    (Api.create_slice fxDbOneSlice "u" "P" "msft" 20 none none "fresh"
        "s9").status = 500 := by
  have hsym : strUpper "msft" = "MSFT" := by decide
  have hsvc : SliceService.create fxDbOneSlice "s9" "P" "F" "msft" 20 none
      none = .integrityError := by
    norm_num [SliceService.create, SliceService.verify_pie_ownership,
      SliceService.get_total_weight, fxDbOneSlice, fxPie, fxPortfolio,
      fxSliceM, hsym]
  refine ⟨hsvc, ?_⟩
  have hres := fx_resolver "fresh" fxDbOneSlice rfl
  simp only [Api.create_slice, hres, hsvc]

/-- C9, amended.  Stored symbols are always the upper-cased input (create
and rename); a duplicate — equality after upper-casing, hence
case-insensitive — is rejected not by a service validation check but by
the database `(pie_id, symbol)` UNIQUE constraint: the service raises an
uncaught `IntegrityError` and the endpoint surfaces a 500 internal error
without field context, never silently succeeding. -/
theorem C9_amended :
    (∀ (db : DB) (fresh pie_id fid sym : String) (w : ℚ)
        (nm nts : Option String) (s : SliceRow) (db' : DB),
        SliceService.create db fresh pie_id fid sym w nm nts = .ok s db' →
        s.symbol = strUpper sym) ∧
    (∀ (db : DB) (sid fid v : String) (nmA : Option String) (wA : Option ℚ)
        (ntsA : Option String) (aA : Option Bool) (s' : SliceRow) (db' : DB),
        SliceService.update db sid fid (some v) nmA wA ntsA aA = .ok s' db' →
        s'.symbol = strUpper v) ∧
    (∀ (db : DB) (fresh pie_id fid sym : String) (w : ℚ)
        (nm nts : Option String) (t : SliceRow),
        SliceService.verify_pie_ownership db pie_id fid = true →
        ¬ SliceService.get_total_weight db pie_id + w > 100 →
        t ∈ db.slices → t.pie_id = pie_id → t.symbol = strUpper sym →
        SliceService.create db fresh pie_id fid sym w nm nts
          = .integrityError) ∧
    (∀ (db : DB) (u pie_id sym : String) (w : ℚ) (nm nts : Option String)
        (fp fs : String),
        SliceService.create (Api.get_user_default_portfolio db u fp).2 fs
            pie_id (Api.get_user_default_portfolio db u fp).1 sym w nm nts
          = .integrityError →
        (Api.create_slice db u pie_id sym w nm nts fp fs).status = 500) ∧
    (∀ (db : DB) (sid fid v : String) (nmA : Option String) (wA : Option ℚ)
        (ntsA : Option String) (aA : Option Bool) (s t : SliceRow),
        SliceService.get_by_id db sid fid = some s →
        SliceService.update_guard_err db s wA = none →
        t ∈ db.slices → t.id ≠ s.id → t.pie_id = s.pie_id →
        t.symbol = strUpper v →
        SliceService.update db sid fid (some v) nmA wA ntsA aA
          = .integrityError) ∧
    (∀ (db : DB) (u pie_id slice_id : String) (symA nmA : Option String)
        (wA : Option ℚ) (ntsA : Option String) (aA : Option Bool)
        (fp : String) (s : SliceRow),
        SliceService.get_by_id (Api.get_user_default_portfolio db u fp).2
            slice_id (Api.get_user_default_portfolio db u fp).1 = some s →
        (s.pie_id != pie_id) = false →
        SliceService.update (Api.get_user_default_portfolio db u fp).2
            slice_id (Api.get_user_default_portfolio db u fp).1 symA nmA wA
            ntsA aA = .integrityError →
        (Api.update_slice db u pie_id slice_id symA nmA wA ntsA
            aA fp).status = 500) := by
  refine ⟨?_, ?_, ?_, ?_, ?_, ?_⟩
  · intro db fresh pie_id fid sym w nm nts s db' h
    obtain ⟨_, _, hs, _⟩ := slice_create_ok_elim h
    rw [hs]
  · intro db sid fid v nmA wA ntsA aA s' db' h
    obtain ⟨s, _, _, hs', _, _⟩ := slice_update_ok_elim h
    rw [hs']
    rfl
  · intro db fresh pie_id fid sym w nm nts t hv hg hmem hpie hsymm
    unfold SliceService.create
    rw [if_neg (by simpa using hv), if_neg hg, if_pos]
    rw [List.any_eq_true]
    exact ⟨t, hmem, by simp [hpie, hsymm]⟩
  · intro db u pie_id sym w nm nts fp fs h
    rcases hr : Api.get_user_default_portfolio db u fp with ⟨fid, db1⟩
    rw [hr] at h
    simp only [Api.create_slice, hr]
    rw [h]
  · intro db sid fid v nmA wA ntsA aA s t hfind hguard hmem hid hpie hsymm
    have hdup : SliceService.update_dup db s.id
        (SliceService.apply_update s (some v) nmA wA ntsA aA) = true := by
      rw [SliceService.update_dup, List.any_eq_true]
      refine ⟨t, hmem, ?_⟩
      have h1 : (t.id == s.id) = false := by simpa using hid
      have h2 : (SliceService.apply_update s (some v) nmA wA ntsA
          aA).pie_id = s.pie_id := rfl
      have h3 : (SliceService.apply_update s (some v) nmA wA ntsA
          aA).symbol = strUpper v := rfl
      simp [h1, h2, h3, hpie, hsymm]
    simp only [SliceService.update, hfind, hguard, hdup]
    rfl
  · intro db u pie_id slice_id symA nmA wA ntsA aA fp s hfind hpm hsvc
    rcases hr : Api.get_user_default_portfolio db u fp with ⟨fid, db1⟩
    rw [hr] at hfind hsvc
    simp only [Api.update_slice, hr, hfind, hpm, hsvc]
    norm_num

/-- C9 witness: `NFLX` created next to `m` stores symbol `NFLX` upper-cased
from `nflx`; renaming `m` to `aaa` stores `AAA`; creating `msft` next to
the stored `MSFT` is an integrity error and the create endpoint answers
500; renaming slice `b` to `aaa` next to the stored `AAA` is an
integrity error and the update endpoint answers 500. -/
theorem C9_amended_witness :
    strUpper "nflx" = "NFLX" ∧
    strUpper "aaa" = "AAA" ∧
    SliceService.create fxDbOneSlice "s9" "P" "F" "msft" 20 none none
      = .integrityError ∧
    (Api.create_slice fxDbOneSlice "u" "P" "msft" 20 none none "fresh"
        "s9").status = 500 ∧
    SliceService.update fxDbThree "b" "F" (some "aaa") none none none none
      = .integrityError ∧
    (Api.update_slice fxDbThree "u" "P" "b" (some "aaa") none none none none
        "fresh").status = 500 := by
  have hsym : strUpper "msft" = "MSFT" := by decide
  have hdup : SliceService.create fxDbOneSlice "s9" "P" "F" "msft" 20 none
      none = .integrityError :=
    C9_amended.2.2.1 fxDbOneSlice "s9" "P" "F" "msft" 20 none none fxSliceM
      (by decide) (by norm_num [SliceService.get_total_weight, fxDbOneSlice,
        fxSliceM]) (by simp [fxDbOneSlice]) rfl (by rw [hsym]; rfl)
  have hres := fx_resolver "fresh" fxDbOneSlice rfl
  have h500 : (Api.create_slice fxDbOneSlice "u" "P" "msft" 20 none none
      "fresh" "s9").status = 500 :=
    C9_amended.2.2.2.1 fxDbOneSlice "u" "P" "msft" 20 none none "fresh" "s9"
      (by rw [hres]; exact hdup)
  have h1 : ("a" == "b") = false := by decide
  have hsymB : strUpper "aaa" = "AAA" := by decide
  have hfindB : SliceService.get_by_id fxDbThree "b" "F" = some fxB := by
    simp [SliceService.get_by_id, List.find?, fxDbThree, fxA, fxB,
      SliceService.verify_pie_ownership, fxPie, h1]
  have hrename : SliceService.update fxDbThree "b" "F" (some "aaa") none none
      none none = .integrityError :=
    C9_amended.2.2.2.2.1 fxDbThree "b" "F" "aaa" none none none none fxB
      fxA hfindB (update_guard_err_none fxDbThree fxB)
      (by simp [fxDbThree]) (by decide) rfl (by rw [hsymB]; rfl)
  have hresT := fx_resolver "fresh" fxDbThree rfl
  have h500b : (Api.update_slice fxDbThree "u" "P" "b" (some "aaa") none none
      none none "fresh").status = 500 :=
    C9_amended.2.2.2.2.2 fxDbThree "u" "P" "b" (some "aaa") none none none
      none "fresh" fxB (by rw [hresT]; exact hfindB) (by decide)
      (by rw [hresT]; exact hrename)
  have hup : SliceService.update fxDbOneSlice "m" "F" (some "aaa") none none
      none none =
      .ok { fxSliceM with symbol := "AAA" }
        { fxDbOneSlice with slices := [{ fxSliceM with symbol := "AAA" }] } := by
    have hsym2 : strUpper "aaa" = "AAA" := by decide
    norm_num [SliceService.update, SliceService.get_by_id, List.find?,
      SliceService.verify_pie_ownership, fxDbOneSlice, fxSliceM, fxPie,
      SliceService.update_guard_err, SliceService.update_dup,
      SliceService.apply_update, hsym2]
  have hok : SliceService.create fxDbOneSlice "s2" "P" "F" "nflx" 20 none
      none =
      .ok { fxNflx with symbol := strUpper "nflx" }
        { fxDbOneSlice with
          slices := [fxSliceM, { fxNflx with symbol := strUpper "nflx" }] } := by
    have hms : ("MSFT" == strUpper "nflx") = false := by decide
    norm_num [SliceService.create, SliceService.verify_pie_ownership,
      SliceService.get_total_weight, fxDbOneSlice, fxPie, fxPortfolio,
      fxSliceM, max_order_of, hms, fxNflx]
  refine ⟨?_, ?_, hdup, h500, hrename, h500b⟩
  · exact (C9_amended.1 fxDbOneSlice "s2" "P" "F" "nflx" 20 none none _ _
      hok).symm.trans (by rfl)
  · exact (C9_amended.2.1 fxDbOneSlice "m" "F" "aaa" none none none none _ _
      hup).symm.trans (by rfl)

lemma eq_of_mem_nodup_key {α : Type} (key : α → String) {l : List α}
    (hnd : (l.map key).Nodup) {a b : α} (ha : a ∈ l) (hb : b ∈ l)
    (hk : key a = key b) : a = b := by
  induction l with
  | nil => cases ha
  | cons x l ih =>
    rw [List.map_cons, List.nodup_cons] at hnd
    rcases List.mem_cons.mp ha with rfl | ha' <;>
      rcases List.mem_cons.mp hb with rfl | hb'
    · rfl
    · exact absurd (hk ▸ List.mem_map_of_mem key hb') hnd.1
    · exact absurd (hk ▸ List.mem_map_of_mem key ha') hnd.1
    · exact ih hnd.2 ha' hb'

lemma resolver_id_ne (db : DB) (u fp : String) (q : PortfolioRow)
    (hq : q ∈ db.portfolios) (hqname : q.name ≠ "Default Portfolio")
    (hnd : (db.portfolios.map fun r => r.id).Nodup)
    (hfp : fp ∉ db.portfolios.map fun r => r.id) :
    (Api.get_user_default_portfolio db u fp).1 ≠ q.id := by
  unfold Api.get_user_default_portfolio
  rcases hf : (PortfolioService.get_user_portfolios db u).find?
      fun p => p.name == "Default Portfolio" with _ | r
  · simp only [hf, PortfolioService.create_portfolio]
    intro he
    exact hfp (he ▸ List.mem_map_of_mem _ hq)
  · simp only [hf]
    have hrname : r.name = "Default Portfolio" := by
      simpa using List.find?_some hf
    have hrmem : r ∈ db.portfolios := by
      have h1 := List.mem_of_find?_eq_some hf
      unfold PortfolioService.get_user_portfolios at h1
      have h2 := (List.mem_insertionSort _).mp h1
      exact (List.mem_filter.mp h2).1
    intro he
    have : r = q := eq_of_mem_nodup_key (fun t => t.id) hnd hrmem hq he
    rw [this] at hrname
    exact hqname hrname

lemma reorder_loop_mem_fixed {α : Type} (hit : String → α → Bool)
    (set_ord : Int → α → α) (ids : List String) (k : Int) (l : List α)
    (a : α) (ha : a ∈ l) (hfix : ∀ i, hit i a = false) :
    a ∈ reorder_loop hit set_ord ids k l := by
  induction ids generalizing k l with
  | nil => exact ha
  | cons i0 rest ih =>
    unfold reorder_loop
    apply ih
    have : (if hit i0 a then set_ord k a else a) = a := by
      rw [hfix i0]
      simp
    exact this ▸ List.mem_map_of_mem _ ha

/-- C10.  The single-pie GET and DELETE endpoints and the pie reorder
endpoint always resolve the scope to the caller's "Default Portfolio" and
accept no explicit portfolio id, so a pie that lives in another portfolio
(here: one owned by the same user but not named "Default Portfolio") is
unreachable through them: GET and DELETE answer 404 (the delete removing
nothing), and a reorder list naming the pie leaves its row, display_order
included, unchanged. -/
theorem C10_default_scope (db : DB) (u pie_id fp : String) (p : PieRow)
    (q : PortfolioRow) (hp : p ∈ db.pies) (hpid : p.id = pie_id)
    (hpq : p.portfolio_id = q.id) (hq : q ∈ db.portfolios)
    (hqu : q.user_id = u) (hqname : q.name ≠ "Default Portfolio")
    (hndP : (db.portfolios.map fun r => r.id).Nodup)
    (hndPie : (db.pies.map fun r => r.id).Nodup)
    (hfp : fp ∉ db.portfolios.map fun r => r.id) :
    (Api.get_pie db u pie_id fp).status = 404 ∧
    (Api.delete_pie db u pie_id fp).status = 404 ∧
    (Api.delete_pie db u pie_id fp).db.pies = db.pies ∧
    ∀ ids, p ∈ (Api.reorder_pies db u ids fp).db.pies := by
  have hne := resolver_id_ne db u fp q hq hqname hndP hfp
  have hpres := resolver_preserves db u fp
  rcases hr : Api.get_user_default_portfolio db u fp with ⟨rid, db1⟩
  rw [hr] at hne hpres
  have hnohit : ∀ pp ∈ db1.pies,
      ¬ ((pp.id == pie_id && pp.portfolio_id == rid) = true) := by
    intro pp hpp hcond
    simp only [Bool.and_eq_true, beq_iff_eq] at hcond
    have hppmem : pp ∈ db.pies := hpres.1 ▸ hpp
    have : pp = p := by
      apply eq_of_mem_nodup_key (fun t => t.id) hndPie hppmem hp
      rw [hcond.1, hpid]
    rw [this, hpq] at hcond
    exact hne hcond.2.symm
  have hfind : PieService.get_by_id db1 pie_id rid = none := by
    unfold PieService.get_by_id
    rw [List.find?_eq_none]
    exact hnohit
  have hany : (db1.pies.any fun pp =>
      pp.id == pie_id && pp.portfolio_id == rid) = false := by
    rw [List.any_eq_false]
    exact hnohit
  refine ⟨?_, ?_, ?_, ?_⟩
  · simp only [Api.get_pie, hr, hfind]
  · simp [Api.delete_pie, hr, PieService.delete, hany]
  · have : (Api.delete_pie db u pie_id fp).db = db1 := by
      simp [Api.delete_pie, hr, PieService.delete, hany]
    rw [this]
    exact hpres.1
  · intro ids
    simp only [Api.reorder_pies, hr, PieService.reorder]
    apply reorder_loop_mem_fixed
    · exact hpres.1 ▸ hp
    · intro i
      have : ¬ ((p.id == i && p.portfolio_id == rid) = true) := by
        intro hcond
        simp only [Bool.and_eq_true, beq_iff_eq] at hcond
        rw [hpq] at hcond
        exact hne hcond.2.symm
      revert this
      cases p.id == i && p.portfolio_id == rid <;> simp

/-- The user's second, non-default portfolio `Q`. -/
def fxOther : PortfolioRow :=
  { id := "Q", user_id := "u", name := "Other", description := none,
    account_type := none, ibkr_account_id := none,
    auto_invest_enabled := false }

/-- A pie `PQ` living in portfolio `Q`. -/
def fxPieQ : PieRow :=
  { id := "PQ", portfolio_id := "Q", name := "Growth", description := none,
    color := "#000000", icon := none, target_allocation := 5,
    display_order := 1, is_active := true }

/-- State where the user owns only portfolio `Q` with pie `PQ`. -/
def fxDbOther : DB :=
  { portfolios := [fxOther], pies := [fxPieQ], slices := [] }

/-- C10 witness: pie `PQ` of the user's portfolio `Q` is 404 for GET and
DELETE (state untouched), and a reorder naming `PQ` leaves its row
unchanged. -/
theorem C10_default_scope_witness :
    (Api.get_pie fxDbOther "u" "PQ" "fresh").status = 404 ∧
    (Api.delete_pie fxDbOther "u" "PQ" "fresh").status = 404 ∧
    (Api.delete_pie fxDbOther "u" "PQ" "fresh").db.pies = fxDbOther.pies ∧
    fxPieQ ∈ (Api.reorder_pies fxDbOther "u" ["PQ"] "fresh").db.pies := by
  have h := C10_default_scope fxDbOther "u" "PQ" "fresh" fxPieQ fxOther
    (by simp [fxDbOther]) rfl rfl (by simp [fxDbOther]) rfl (by decide)
    (by simp [fxDbOther]) (by simp [fxDbOther]) (by simp [fxDbOther, fxOther])
  exact ⟨h.1, h.2.1, h.2.2.1, h.2.2.2 ["PQ"]⟩

/-- An active slice `a` (AAPL, weight 100) in pie `P`. -/
def fxAfull : SliceRow :=
  { id := "a", pie_id := "P", symbol := "AAPL", name := none,
    target_weight := 100, display_order := 1, notes := none,
    is_active := true }

/-- An inactive slice `b` (MSFT, weight 50) in pie `P`. -/
def fxBInact : SliceRow :=
  { id := "b", pie_id := "P", symbol := "MSFT", name := none,
    target_weight := 50, display_order := 2, notes := none,
    is_active := false }

/-- State with active `a` (100) and inactive `b` (50) in pie `P`. -/
def fxDbInact : DB :=
  { portfolios := [fxPortfolio], pies := [fxPie], slices := [fxAfull, fxBInact] }

/-- C2, counterexample.  For an update of the *inactive* slice `b`
(stored weight 50) to weight 40, the claim's guard formula uses
`current_total = sum of active siblings excluding b = 100` and must reject
(`100 + 40 > 100`); the code computes `get_total_weight - stored + new =
100 - 50 + 40 = 90 ≤ 100` — it subtracts the stored weight even though the
inactive entity never contributed it — and accepts the update. -/
theorem C2_counterexample :
    specActiveSumExcluding fxDbInact fxBInact + 40 > 100 ∧
    SliceService.update fxDbInact "b" "F" none none (some 40) none none =
      .ok { fxBInact with target_weight := 40 }
        { fxDbInact with
          slices := [fxAfull, { fxBInact with target_weight := 40 }] } := by
  have h1 : ("a" == "b") = false := by decide
  have h2 : ("AAPL" == "MSFT") = false := by decide
  constructor
  · norm_num [specActiveSumExcluding, fxDbInact, fxAfull, fxBInact,
      List.filter_cons, h1]
  · norm_num [SliceService.update, SliceService.get_by_id, List.find?,
      SliceService.verify_pie_ownership, fxDbInact, fxAfull, fxBInact, fxPie,
      SliceService.update_guard_err, SliceService.get_total_weight,
      SliceService.update_dup, SliceService.apply_update, List.filter_cons,
      h1, h2]
    all_goals decide

lemma sum_weights_split {l : List SliceRow}
    (hnd : (l.map fun t => t.id).Nodup) {s : SliceRow} (hs : s ∈ l)
    (hact : s.is_active = true) :
    ((l.filter fun t => t.pie_id == s.pie_id && t.is_active).map
        fun t => t.target_weight).sum
      = s.target_weight +
        ((l.filter fun t =>
            t.pie_id == s.pie_id && t.is_active && !(t.id == s.id)).map
          fun t => t.target_weight).sum := by
  induction l with
  | nil => cases hs
  | cons a l ih =>
    rw [List.map_cons, List.nodup_cons] at hnd
    rcases List.mem_cons.mp hs with rfl | hmem
    · have htail : (l.filter fun t =>
          t.pie_id == s.pie_id && t.is_active && !(t.id == s.id)) =
          (l.filter fun t => t.pie_id == s.pie_id && t.is_active) := by
        apply List.filter_congr
        intro t ht
        have : ¬ t.id = s.id := fun hk =>
          hnd.1 (hk ▸ List.mem_map_of_mem (fun r => r.id) ht)
        simp [this]
      rw [List.filter_cons, List.filter_cons]
      simp only [beq_self_eq_true, Bool.true_and, hact, Bool.and_true,
        Bool.not_true, Bool.and_false, if_true, if_false, htail]
      simp [List.sum_cons]
    · have hid : ¬ a.id = s.id := by
        intro hk
        exact hnd.1 (hk ▸ List.mem_map_of_mem (fun r => r.id) hmem)
      have hb : (!(a.id == s.id)) = true := by simp [hid]
      rw [List.filter_cons, List.filter_cons]
      by_cases hcond : (a.pie_id == s.pie_id && a.is_active) = true
      · simp only [hcond, hb, Bool.and_true, if_true, List.map_cons,
          List.sum_cons, ih hnd.2 hmem]
        ring
      · have : (a.pie_id == s.pie_id && a.is_active && !(a.id == s.id)) =
            false := by
          rw [hb, Bool.and_true]
          revert hcond
          cases a.pie_id == s.pie_id && a.is_active <;> simp
        simp only [this, Bool.false_eq_true, if_false]
        have hcond' : (a.pie_id == s.pie_id && a.is_active) = false := by
          revert hcond
          cases a.pie_id == s.pie_id && a.is_active <;> simp
        simp only [hcond', Bool.false_eq_true, if_false]
        exact ih hnd.2 hmem

/-- C2, amended.  The slice allocation guard: creation rejects (with the
three-field error) exactly when `get_total_weight + new > 100`, with no
exclusion; an update providing a `target_weight` different from the stored
one rejects exactly when `get_total_weight - stored + new > 100` — the
stored value is subtracted even when the updated entity is inactive, so
the code's current total equals the claimed "sum of active siblings
excluding the entity" only when that entity is active; inactive siblings
contribute nothing to `get_total_weight`; an update whose provided value
equals the stored one performs no guard check. -/
theorem C2_amended :
    (∀ (db : DB) (fresh pie_id fid sym : String) (w : ℚ)
        (nm nts : Option String),
        SliceService.verify_pie_ownership db pie_id fid = true →
        (SliceService.create db fresh pie_id fid sym w nm nts =
            .valueError
              (.sliceCreateExceeded (SliceService.get_total_weight db pie_id) w
                (SliceService.get_total_weight db pie_id + w)) ↔
          SliceService.get_total_weight db pie_id + w > 100)) ∧
    (∀ (db : DB) (sid fid : String) (symA nmA ntsA : Option String)
        (aA : Option Bool) (w : ℚ) (s : SliceRow),
        SliceService.get_by_id db sid fid = some s →
        w ≠ s.target_weight →
        (SliceService.update db sid fid symA nmA (some w) ntsA aA =
            .valueError
              (.sliceUpdateExceeded
                (SliceService.get_total_weight db s.pie_id -
                  s.target_weight + w)) ↔
          SliceService.get_total_weight db s.pie_id - s.target_weight + w
            > 100)) ∧
    (∀ (db : DB) (s : SliceRow), (db.slices.map fun t => t.id).Nodup →
        s ∈ db.slices → s.is_active = true →
        SliceService.get_total_weight db s.pie_id - s.target_weight =
          specActiveSumExcluding db s) ∧
    (∀ (db : DB) (pid : String),
        SliceService.get_total_weight db pid =
          SliceService.get_total_weight
            { db with slices := db.slices.filter fun t => t.is_active } pid) ∧
    (∀ (db : DB) (sid fid : String) (symA nmA ntsA : Option String)
        (aA : Option Bool) (s : SliceRow) (e : DomainError),
        SliceService.get_by_id db sid fid = some s →
        SliceService.update db sid fid symA nmA (some s.target_weight) ntsA aA
          ≠ .valueError e) := by
  refine ⟨?_, ?_, ?_, ?_, ?_⟩
  · intro db fresh pie_id fid sym w nm nts hv
    rw [slice_create_valueError_iff]
    constructor
    · rintro ⟨_, hgt, _⟩
      exact hgt
    · intro hgt
      exact ⟨hv, hgt, rfl⟩
  · intro db sid fid symA nmA ntsA aA w s hfind hne
    rw [slice_update_valueError_iff]
    constructor
    · rintro ⟨s0, hs0, hg0⟩
      rw [hfind] at hs0
      rw [← Option.some_inj.mp hs0] at hg0
      exact ((update_guard_err_some_iff db s w _).mp hg0).2.1
    · intro hgt
      exact ⟨s, hfind,
        (update_guard_err_some_iff db s w _).mpr ⟨hne, hgt, rfl⟩⟩
  · intro db s hnd hs hact
    unfold SliceService.get_total_weight specActiveSumExcluding
    rw [sum_weights_split hnd hs hact]
    ring
  · intro db pid
    unfold SliceService.get_total_weight
    rw [List.filter_filter]
    have heq : (db.slices.filter fun s => s.pie_id == pid && s.is_active) =
        db.slices.filter fun a => a.pie_id == pid && a.is_active &&
          a.is_active := by
      apply List.filter_congr
      intro t _
      cases t.is_active <;> simp
    rw [heq]
  · intro db sid fid symA nmA ntsA aA s e hfind h
    rcases (slice_update_valueError_iff db sid fid symA nmA
        (some s.target_weight) ntsA aA e).mp h with ⟨s0, hs0, hg0⟩
    rw [hfind] at hs0
    rw [← Option.some_inj.mp hs0] at hg0
    rw [update_guard_err_eq_weight] at hg0
    exact absurd hg0 (by simp)

/-- An active slice `a` (AAPL, weight 60) in pie `P`. -/
def fxA60 : SliceRow :=
  { id := "a", pie_id := "P", symbol := "AAPL", name := none,
    target_weight := 60, display_order := 1, notes := none, is_active := true }

/-- State with only slice `a` (weight 60, active) in pie `P`. -/
def fxDb60 : DB :=
  { portfolios := [fxPortfolio], pies := [fxPie], slices := [fxA60] }

/-- C2 witness: with active weight 60 stored, creating 50 rejects with the
three-field error (60, 50, 110); updating `a` to 110 rejects with new
total 110; for the active slice `a` the code's current total matches the
claimed exclusion sum; inactive rows are invisible to the sum; updating
`a` to its stored 60 never raises the guard error. -/
theorem C2_amended_witness :
    SliceService.create fxDb60 "s" "P" "F" "MSFT" 50 none none =
      .valueError (.sliceCreateExceeded 60 50 110) ∧
    SliceService.update fxDb60 "a" "F" none none (some 110) none none =
      .valueError (.sliceUpdateExceeded 110) ∧
    SliceService.get_total_weight fxDb60 "P" - fxA60.target_weight =
      specActiveSumExcluding fxDb60 fxA60 ∧
    SliceService.get_total_weight fxDbInact "P" =
      SliceService.get_total_weight
        { fxDbInact with
          slices := fxDbInact.slices.filter fun t => t.is_active } "P" ∧
    SliceService.update fxDb60 "a" "F" none none (some 60) none none ≠
      .valueError (.sliceUpdateExceeded 0) := by
  have htot : SliceService.get_total_weight fxDb60 "P" = 60 := by
    norm_num [SliceService.get_total_weight, fxDb60, fxA60]
  have hfind : SliceService.get_by_id fxDb60 "a" "F" = some fxA60 := by
    simp [SliceService.get_by_id, List.find?, fxDb60, fxA60,
      SliceService.verify_pie_ownership, fxPie]
  refine ⟨?_, ?_, ?_, ?_, ?_⟩
  · have h := (C2_amended.1 fxDb60 "s" "P" "F" "MSFT" 50 none none
      (by decide)).mpr (by rw [htot]; norm_num)
    rw [htot] at h
    norm_num at h ⊢
    exact h
  · have hne : (110 : ℚ) ≠ fxA60.target_weight := by
      norm_num [fxA60]
    have h := (C2_amended.2.1 fxDb60 "a" "F" none none none none 110 fxA60
      hfind hne).mpr
      (by norm_num [SliceService.get_total_weight, fxDb60, fxA60])
    norm_num [SliceService.get_total_weight, fxDb60, fxA60] at h
    exact h
  · exact C2_amended.2.2.1 fxDb60 fxA60 (by simp [fxDb60, fxA60])
      (by simp [fxDb60]) rfl
  · exact C2_amended.2.2.2.1 fxDbInact "P"
  · exact C2_amended.2.2.2.2 fxDb60 "a" "F" none none none none fxA60
      (.sliceUpdateExceeded 0) hfind

/-- An active slice `b` (MSFT, weight 30) in pie `P`. -/
def fxB30 : SliceRow :=
  { id := "b", pie_id := "P", symbol := "MSFT", name := none,
    target_weight := 30, display_order := 2, notes := none, is_active := true }

/-- State A for C6: active weights 100 (`a`) and 30 (`b`). -/
def fxDbC6a : DB :=
  { portfolios := [fxPortfolio], pies := [fxPie], slices := [fxAfull, fxB30] }

/-- An active slice `a` (AAPL, weight 90) in pie `P`. -/
def fxA90 : SliceRow :=
  { id := "a", pie_id := "P", symbol := "AAPL", name := none,
    target_weight := 90, display_order := 1, notes := none, is_active := true }

/-- An active slice `b` (MSFT, weight 25) in pie `P`. -/
def fxB25 : SliceRow :=
  { id := "b", pie_id := "P", symbol := "MSFT", name := none,
    target_weight := 25, display_order := 2, notes := none, is_active := true }

/-- State B for C6: active weights 90 (`a`) and 25 (`b`). -/
def fxDbC6b : DB :=
  { portfolios := [fxPortfolio], pies := [fxPie], slices := [fxA90, fxB25] }

/-- C6, counterexample.  Two update rejections with different current
totals (100 vs 90, per the spec's "active siblings excluding the entity")
and different attempted values (10 vs 20) produce *identical* failure
payloads — the update template interpolates only the resulting total
("New total would be: 110%") — so an update rejection cannot carry the
current total or the attempted value, refuting "every allocation-guard
rejection … carries all three values". -/
theorem C6_counterexample :
    SliceService.update fxDbC6a "b" "F" none none (some 10) none none =
      .valueError (.sliceUpdateExceeded 110) ∧
    SliceService.update fxDbC6b "b" "F" none none (some 20) none none =
      .valueError (.sliceUpdateExceeded 110) ∧
    specActiveSumExcluding fxDbC6a fxB30 = 100 ∧
    specActiveSumExcluding fxDbC6b fxB25 = 90 ∧
    (100 : ℚ) ≠ 90 := by
  have h1 : ("a" == "b") = false := by decide
  refine ⟨?_, ?_, ?_, ?_, by norm_num⟩
  · norm_num [SliceService.update, SliceService.get_by_id, List.find?,
      SliceService.verify_pie_ownership, fxDbC6a, fxAfull, fxB30, fxPie,
      SliceService.update_guard_err, SliceService.get_total_weight,
      List.filter_cons, h1]
  · norm_num [SliceService.update, SliceService.get_by_id, List.find?,
      SliceService.verify_pie_ownership, fxDbC6b, fxA90, fxB25, fxPie,
      SliceService.update_guard_err, SliceService.get_total_weight,
      List.filter_cons, h1]
  · norm_num [specActiveSumExcluding, fxDbC6a, fxAfull, fxB30,
      List.filter_cons, h1]
  · norm_num [specActiveSumExcluding, fxDbC6b, fxA90, fxB25,
      List.filter_cons, h1]

/-- C6, amended.  Slice-create rejections do carry all three values — the
error payload is exactly (current total, attempted value, resulting
total), and the spec's example holds: creating weight 50 against an
active sum of 60 is rejected with (60, 50, 110).  Slice-update rejections
carry only the resulting total `current - stored + new`. -/
theorem C6_amended :
    (∀ (db : DB) (fresh pie_id fid sym : String) (w : ℚ)
        (nm nts : Option String) (e : DomainError),
        SliceService.create db fresh pie_id fid sym w nm nts = .valueError e →
        e = .sliceCreateExceeded (SliceService.get_total_weight db pie_id) w
              (SliceService.get_total_weight db pie_id + w)) ∧
    (∀ (db : DB) (sid fid : String) (symA nmA : Option String)
        (wA : Option ℚ) (ntsA : Option String) (aA : Option Bool)
        (e : DomainError),
        SliceService.update db sid fid symA nmA wA ntsA aA = .valueError e →
        ∃ s w, SliceService.get_by_id db sid fid = some s ∧ wA = some w ∧
          e = .sliceUpdateExceeded
                (SliceService.get_total_weight db s.pie_id -
                  s.target_weight + w)) ∧
    SliceService.create fxDb60 "s6" "P" "F" "MSFT" 50 none none =
      .valueError (.sliceCreateExceeded 60 50 110) := by
  refine ⟨?_, ?_, ?_⟩
  · intro db fresh pie_id fid sym w nm nts e h
    exact ((slice_create_valueError_iff db fresh pie_id fid sym w nm
      nts e).mp h).2.2
  · intro db sid fid symA nmA wA ntsA aA e h
    rcases (slice_update_valueError_iff db sid fid symA nmA wA ntsA
        aA e).mp h with ⟨s, hs, hg⟩
    cases wA with
    | none => rw [update_guard_err_none] at hg; exact absurd hg (by simp)
    | some w =>
      rcases (update_guard_err_some_iff db s w e).mp hg with ⟨_, _, he⟩
      exact ⟨s, w, hs, rfl, he⟩
  · have hv : SliceService.verify_pie_ownership fxDb60 "P" "F" = true := by
      decide
    have h := (slice_create_valueError_iff fxDb60 "s6" "P" "F" "MSFT" 50 none
      none (.sliceCreateExceeded 60 50 110)).mpr
    have htot : SliceService.get_total_weight fxDb60 "P" = 60 := by
      norm_num [SliceService.get_total_weight, fxDb60, fxA60]
    apply h
    refine ⟨hv, ?_, ?_⟩
    · rw [htot]
      norm_num
    · rw [htot]
      norm_num

/-- C6 witness: the create-rejection payload (60, 50, 110) is exactly
(current, attempted, current + attempted) of the concrete state, and the
update-rejection payload in state A is exactly the resulting total
`130 - 30 + 10`. -/
theorem C6_amended_witness :
    DomainError.sliceCreateExceeded 60 50 110 =
      .sliceCreateExceeded (SliceService.get_total_weight fxDb60 "P") 50
        (SliceService.get_total_weight fxDb60 "P" + 50) ∧
    DomainError.sliceUpdateExceeded 110 =
      .sliceUpdateExceeded
        (SliceService.get_total_weight fxDbC6a fxB30.pie_id -
          fxB30.target_weight + 10) := by
  have h1 : ("a" == "b") = false := by decide
  have hrej : SliceService.create fxDb60 "s6" "P" "F" "MSFT" 50 none none =
      .valueError (.sliceCreateExceeded 60 50 110) := C6_amended.2.2
  have hrej2 : SliceService.update fxDbC6a "b" "F" none none (some 10) none
      none = .valueError (.sliceUpdateExceeded 110) := by
    norm_num [SliceService.update, SliceService.get_by_id, List.find?,
      SliceService.verify_pie_ownership, fxDbC6a, fxAfull, fxB30, fxPie,
      SliceService.update_guard_err, SliceService.get_total_weight,
      List.filter_cons, h1]
  constructor
  · exact C6_amended.1 fxDb60 "s6" "P" "F" "MSFT" 50 none none _ hrej
  · rcases C6_amended.2.1 fxDbC6a "b" "F" none none (some 10) none none _
        hrej2 with ⟨s, w, hs, hw, he⟩
    have hsM : s = fxB30 := by
      have : SliceService.get_by_id fxDbC6a "b" "F" = some fxB30 := by
        simp [SliceService.get_by_id, List.find?, fxDbC6a, fxAfull, fxB30,
          SliceService.verify_pie_ownership, fxPie, h1]
      rw [this] at hs
      exact (Option.some_inj.mp hs).symm
    have hwv : w = 10 := (Option.some_inj.mp hw.symm)
    rw [hsM, hwv] at he
    exact he

/-- C8, code bug.  For slice `m`, which exists in the caller's default
portfolio's pie `P` (first conjunct), the DELETE endpoint answers 404 —
not 204 — and leaves the state unchanged: `delete_slice` in
`app/api/slices.py` contains a duplicated second `service.delete` call
that passes `user_id` where the service expects a portfolio id; after the
first delete succeeds that second lookup finds nothing, the handler raises
404, and the session rollback undoes the uncommitted first delete.  This
contradicts the endpoint's own `status_code=204` declaration and the
spec's success-status contract. -/
theorem C8_delete_slice_bug :
    SliceService.get_by_id fxDbOneSlice "m" "F" = some fxSliceM ∧
    fxSliceM.pie_id = "P" ∧
    (Api.delete_slice fxDbOneSlice "u" "P" "m" "fresh").status = 404 ∧
    (Api.delete_slice fxDbOneSlice "u" "P" "m" "fresh").db = fxDbOneSlice := by
  have hfind : SliceService.get_by_id fxDbOneSlice "m" "F" = some fxSliceM := by
    simp [SliceService.get_by_id, List.find?, fxDbOneSlice, fxSliceM,
      SliceService.verify_pie_ownership, fxPie]
  have hres := fx_resolver "fresh" fxDbOneSlice rfl
  have hdel1 : SliceService.delete fxDbOneSlice "m" "F" =
      (true, { fxDbOneSlice with slices := [] }) := by
    rw [SliceService.delete, hfind]
    norm_num [fxDbOneSlice, fxSliceM, List.filter_cons]
  have hdel2 : SliceService.delete { fxDbOneSlice with slices := [] } "m" "u" =
      (false, { fxDbOneSlice with slices := [] }) := by
    rw [SliceService.delete]
    simp [SliceService.get_by_id, List.find?]
  have hmain : Api.delete_slice fxDbOneSlice "u" "P" "m" "fresh" =
      { status := 404, body := none, db := fxDbOneSlice } := by
    rw [Api.delete_slice, hres]
    simp only [hfind, hdel1, hdel2]
    norm_num [fxSliceM]
  exact ⟨hfind, rfl, by rw [hmain], by rw [hmain]⟩

lemma apply_update_pie_id (s : SliceRow) (symA nmA : Option String)
    (wA : Option ℚ) (ntsA : Option String) (aA : Option Bool) :
    (SliceService.apply_update s symA nmA wA ntsA aA).pie_id = s.pie_id := rfl

lemma apply_update_is_active (s : SliceRow) (symA nmA : Option String)
    (wA : Option ℚ) (ntsA : Option String) (aA : Option Bool) :
    (SliceService.apply_update s symA nmA wA ntsA aA).is_active =
      match aA with | some v => v | none => s.is_active := rfl

lemma apply_update_target_weight (s : SliceRow) (symA nmA : Option String)
    (wA : Option ℚ) (ntsA : Option String) (aA : Option Bool) :
    (SliceService.apply_update s symA nmA wA ntsA aA).target_weight =
      match wA with | some v => v | none => s.target_weight := rfl

lemma pie_apply_update_portfolio_id (p : PieRow) (nmA : Option String)
    (dscA : Option String) (colA icnA : Option String) (aA : Option ℚ)
    (actA : Option Bool) :
    (PieService.apply_update p nmA dscA colA icnA aA actA).portfolio_id =
      p.portfolio_id := rfl

lemma pie_apply_update_is_active (p : PieRow) (nmA : Option String)
    (dscA : Option String) (colA icnA : Option String) (aA : Option ℚ)
    (actA : Option Bool) :
    (PieService.apply_update p nmA dscA colA icnA aA actA).is_active =
      match actA with | some v => v | none => p.is_active := rfl

lemma pie_apply_update_target_allocation (p : PieRow) (nmA : Option String)
    (dscA : Option String) (colA icnA : Option String) (aA : Option ℚ)
    (actA : Option Bool) :
    (PieService.apply_update p nmA dscA colA icnA aA actA).target_allocation =
      match aA with | some v => v | none => p.target_allocation := rfl

lemma update_guard_err_none_elim {db : DB} {s : SliceRow} {w : ℚ}
    (h : SliceService.update_guard_err db s (some w) = none)
    (hne : w ≠ s.target_weight) :
    ¬ SliceService.get_total_weight db s.pie_id - s.target_weight + w
      > 100 := by
  simp only [SliceService.update_guard_err, if_pos hne] at h
  intro hgt
  rw [if_pos hgt] at h
  exact absurd h (by simp)

lemma pie_update_ok_elim {db : DB} {pid fid : String}
    {nmA dscA colA icnA : Option String} {aA : Option ℚ} {actA : Option Bool}
    {p' : PieRow} {db' : DB}
    (h : PieService.update db pid fid nmA dscA colA icnA aA actA
      = .ok p' db') :
    ∃ p, PieService.get_by_id db pid fid = some p ∧
      p' = PieService.apply_update p nmA dscA colA icnA aA actA ∧
      db' = { db with
        pies := db.pies.map fun q => if q.id == p.id then p' else q } := by
  simp only [PieService.update] at h
  split at h
  · exact absurd h (by simp)
  · rename_i p hfind
    simp only [SvcResult.ok.injEq] at h
    exact ⟨p, hfind, h.1.symm, by rw [← h.2, h.1]⟩

lemma resolve_portfolio_some_elim {db : DB} {u : String}
    {dp : Option String} {f fid : String} {db1 : DB}
    (h : Api.resolve_portfolio db u dp f = some (fid, db1)) :
    db1.pies = db.pies ∧ db1.slices = db.slices := by
  unfold Api.resolve_portfolio at h
  split at h
  · split at h
    · simp only [Option.some_inj, Prod.mk.injEq] at h
      rw [← h.2]
      exact ⟨rfl, rfl⟩
    · exact absurd h (by simp)
  · simp only [Option.some_inj] at h
    have := resolver_preserves db u f
    rw [h] at this
    exact this

lemma slice_create_preserves_inv {db : DB} {fresh pie_id fid sym : String}
    {w : ℚ} {nm nts : Option String} {s : SliceRow} {db' : DB}
    (h : SliceService.create db fresh pie_id fid sym w nm nts = .ok s db')
    (hinv : ∀ pid, SliceService.get_total_weight db pid ≤ 100) :
    (∀ pid, SliceService.get_total_weight db' pid ≤ 100) ∧
      db'.pies = db.pies := by
  obtain ⟨_, hg, hs, hdb⟩ := slice_create_ok_elim h
  refine ⟨?_, by rw [hdb]⟩
  intro pid
  rw [hdb, get_total_weight_eq_contrib]
  show ((db.slices ++ [s]).map (slice_contrib pid)).sum ≤ 100
  rw [List.map_append, List.sum_append]
  rw [show (([s].map (slice_contrib pid)).sum = slice_contrib pid s) by simp]
  rw [← get_total_weight_eq_contrib]
  by_cases hpid : pie_id = pid
  · have hc : slice_contrib pid s = w := by
      rw [hs]
      simp [slice_contrib, hpid]
    rw [hc]
    have := not_lt.mp hg
    rw [hpid] at this
    exact this
  · have hc : slice_contrib pid s = 0 := by
      rw [hs]
      simp [slice_contrib, hpid]
    rw [hc, add_zero]
    exact hinv pid

lemma slice_update_preserves_inv {db : DB} {sid fid : String}
    {symA nmA : Option String} {wA : Option ℚ} {ntsA : Option String}
    {aA : Option Bool} {s' : SliceRow} {db' : DB}
    (h : SliceService.update db sid fid symA nmA wA ntsA aA = .ok s' db')
    (hnd : (db.slices.map fun t => t.id).Nodup)
    (hw0 : ∀ t ∈ db.slices, 0 ≤ t.target_weight)
    (hna : ∀ t ∈ db.slices, t.id = sid → aA = some true → t.is_active = true)
    (hinv : ∀ pid, SliceService.get_total_weight db pid ≤ 100) :
    (∀ pid, SliceService.get_total_weight db' pid ≤ 100) ∧
      db'.pies = db.pies := by
  obtain ⟨s, hfind, hguard, hs', hdup, hdb⟩ := slice_update_ok_elim h
  obtain ⟨hsmem, hsid, _⟩ := slice_get_by_id_some hfind
  refine ⟨?_, by rw [hdb]⟩
  intro pid
  rw [hdb, get_total_weight_eq_contrib]
  show ((db.slices.map fun t => if t.id == s.id then s' else t).map
      (slice_contrib pid)).sum ≤ 100
  rw [sum_map_update_of_nodup (fun t => t.id) (slice_contrib pid)
    (fun _ => s') db.slices hnd s hsmem]
  rw [← get_total_weight_eq_contrib]
  by_cases hpid : s.pie_id = pid
  case neg =>
    have hc1 : slice_contrib pid s = 0 := by simp [slice_contrib, hpid]
    have hc2 : slice_contrib pid s' = 0 := by
      rw [hs']
      simp [slice_contrib, apply_update_pie_id, hpid]
    rw [hc1, hc2]
    simpa using hinv pid
  case pos =>
    cases hact : s.is_active with
    | false =>
      have hact' : s'.is_active = false := by
        rw [hs', apply_update_is_active]
        cases haA : aA with
        | none => exact hact
        | some v =>
          cases v with
          | false => rfl
          | true => exact absurd (hna s hsmem hsid haA) (by rw [hact]; simp)
      have hc1 : slice_contrib pid s = 0 := by simp [slice_contrib, hact]
      have hc2 : slice_contrib pid s' = 0 := by simp [slice_contrib, hact']
      rw [hc1, hc2]
      simpa using hinv pid
    | true =>
      have hc1 : slice_contrib pid s = s.target_weight := by
        simp [slice_contrib, hact, hpid]
      rw [hc1]
      cases hact' : s'.is_active with
      | false =>
        have hc2 : slice_contrib pid s' = 0 := by simp [slice_contrib, hact']
        rw [hc2, add_zero]
        have h1 := hinv pid
        have h2 := hw0 s hsmem
        linarith
      | true =>
        have hc2 : slice_contrib pid s' = s'.target_weight := by
          have hpid' : s'.pie_id = pid := by
            rw [hs', apply_update_pie_id, hpid]
          simp [slice_contrib, hact', hpid']
        rw [hc2]
        cases hwA : wA with
        | none =>
          rw [hwA] at hs'
          have hw' : s'.target_weight = s.target_weight := by
            rw [hs']
            rfl
          rw [hw']
          have := hinv pid
          linarith
        | some w =>
          rw [hwA] at hs' hguard
          have hw' : s'.target_weight = w := by
            rw [hs']
            rfl
          rw [hw']
          by_cases heq : w = s.target_weight
          · rw [heq]
            have := hinv pid
            linarith
          · have hng := update_guard_err_none_elim hguard heq
            rw [hpid] at hng
            linarith [not_lt.mp hng]

lemma pie_update_preserves_alloc {db : DB} {pid fid : String}
    {nmA dscA colA icnA : Option String} {aA : Option ℚ} {actA : Option Bool}
    {p' : PieRow} {db' : DB}
    (h : PieService.update db pid fid nmA dscA colA icnA aA actA = .ok p' db')
    (hnd : (db.pies.map fun q => q.id).Nodup)
    (ha0 : ∀ q ∈ db.pies, 0 ≤ q.target_allocation)
    (hna : ∀ q ∈ db.pies, q.id = pid → actA = some true → q.is_active = true)
    (hguard : ∀ p a, PieService.get_by_id db pid fid = some p →
      aA = some a →
      PieService.get_total_allocation db fid - p.target_allocation + a ≤ 100)
    (hinv : ∀ fid', PieService.get_total_allocation db fid' ≤ 100) :
    (∀ fid', PieService.get_total_allocation db' fid' ≤ 100) ∧
      db'.slices = db.slices := by
  obtain ⟨p, hfind, hp', hdb⟩ := pie_update_ok_elim h
  obtain ⟨hpmem, hpid, hpfid⟩ := pie_get_by_id_some hfind
  refine ⟨?_, by rw [hdb]⟩
  intro fid'
  rw [hdb, get_total_allocation_eq_contrib]
  show ((db.pies.map fun q => if q.id == p.id then p' else q).map
      (pie_contrib fid')).sum ≤ 100
  rw [sum_map_update_of_nodup (fun q => q.id) (pie_contrib fid')
    (fun _ => p') db.pies hnd p hpmem]
  rw [← get_total_allocation_eq_contrib]
  by_cases hfid' : p.portfolio_id = fid'
  case neg =>
    have hc1 : pie_contrib fid' p = 0 := by simp [pie_contrib, hfid']
    have hc2 : pie_contrib fid' p' = 0 := by
      rw [hp']
      simp [pie_contrib, pie_apply_update_portfolio_id, hfid']
    rw [hc1, hc2]
    simpa using hinv fid'
  case pos =>
    cases hact : p.is_active with
    | false =>
      have hact' : p'.is_active = false := by
        rw [hp', pie_apply_update_is_active]
        cases hactA : actA with
        | none => exact hact
        | some v =>
          cases v with
          | false => rfl
          | true =>
            exact absurd (hna p hpmem hpid hactA) (by rw [hact]; simp)
      have hc1 : pie_contrib fid' p = 0 := by simp [pie_contrib, hact]
      have hc2 : pie_contrib fid' p' = 0 := by simp [pie_contrib, hact']
      rw [hc1, hc2]
      simpa using hinv fid'
    | true =>
      have hc1 : pie_contrib fid' p = p.target_allocation := by
        simp [pie_contrib, hact, hfid']
      rw [hc1]
      cases hact' : p'.is_active with
      | false =>
        have hc2 : pie_contrib fid' p' = 0 := by simp [pie_contrib, hact']
        rw [hc2, add_zero]
        have h1 := hinv fid'
        have h2 := ha0 p hpmem
        linarith
      | true =>
        have hc2 : pie_contrib fid' p' = p'.target_allocation := by
          have : p'.portfolio_id = fid' := by
            rw [hp', pie_apply_update_portfolio_id, hfid']
          simp [pie_contrib, hact', this]
        rw [hc2]
        cases haA : aA with
        | none =>
          rw [haA] at hp'
          have hw' : p'.target_allocation = p.target_allocation := by
            rw [hp']
            rfl
          rw [hw']
          have := hinv fid'
          linarith
        | some a =>
          rw [haA] at hp'
          have hw' : p'.target_allocation = a := by
            rw [hp']
            rfl
          rw [hw']
          have hb := hguard p a hfind haA
          rw [hpfid] at hfid'
          rw [← hfid']
          exact hb

lemma pie_total_append (db1 : DB) (row : PieRow) (fid' : String) :
    PieService.get_total_allocation { db1 with pies := db1.pies ++ [row] } fid'
      = PieService.get_total_allocation db1 fid' + pie_contrib fid' row := by
  rw [get_total_allocation_eq_contrib, get_total_allocation_eq_contrib]
  show ((db1.pies ++ [row]).map (pie_contrib fid')).sum = _
  rw [List.map_append, List.sum_append]
  simp

lemma create_pie_endpoint_inv (db : DB) (u : String) (dp : Option String)
    (nm : String) (dsc : Option String) (col : String) (icn : Option String)
    (a : ℚ) (fp fpie : String) (hinv : allocation_invariant db) :
    allocation_invariant
      (Api.create_pie db u dp nm dsc col icn a fp fpie).db := by
  unfold Api.create_pie
  rcases hres : Api.resolve_portfolio db u dp fp with _ | ⟨fid, db1⟩
  · simp only [hres]
    exact hinv
  · simp only [hres]
    obtain ⟨hpies, hslices⟩ := resolve_portfolio_some_elim hres
    have hinv1 : allocation_invariant db1 :=
      allocation_invariant_congr hpies hslices hinv
    by_cases hguard : PieService.get_total_allocation db1 fid + a > 100
    · rw [if_pos hguard]
      exact hinv1
    · rw [if_neg hguard]
      simp only [PieService.create]
      constructor
      · intro fid'
        rw [pie_total_append]
        by_cases hfid' : fid = fid'
        · have hc : pie_contrib fid'
              { id := fpie, portfolio_id := fid, name := nm,
                description := dsc, color := col, icon := icn,
                target_allocation := a,
                display_order := (max_order_of ((db1.pies.filter fun p =>
                    p.portfolio_id == fid).map
                  fun p => p.display_order)).getD 0 + 1,
                is_active := true } = a := by
            simp [pie_contrib, hfid']
          rw [hc, ← hfid']
          exact not_lt.mp hguard
        · have hc : pie_contrib fid'
              { id := fpie, portfolio_id := fid, name := nm,
                description := dsc, color := col, icon := icn,
                target_allocation := a,
                display_order := (max_order_of ((db1.pies.filter fun p =>
                    p.portfolio_id == fid).map
                  fun p => p.display_order)).getD 0 + 1,
                is_active := true } = 0 := by
            simp [pie_contrib, hfid']
          rw [hc, add_zero]
          exact hinv1.1 fid'
      · intro pid
        exact hinv1.2 pid

lemma update_pie_endpoint_inv (db : DB) (u pie_id : String) (dp : Option String)
    (nmA dscA : Option String) (colA icnA : Option String) (aA : Option ℚ)
    (actA : Option Bool) (fp : String)
    (hnd : (db.pies.map fun q => q.id).Nodup)
    (ha0 : ∀ q ∈ db.pies, 0 ≤ q.target_allocation)
    (hna : ∀ q ∈ db.pies, q.id = pie_id → actA = some true →
      q.is_active = true)
    (hinv : allocation_invariant db) :
    allocation_invariant
      (Api.update_pie db u pie_id dp nmA dscA colA icnA aA actA fp).db := by
  unfold Api.update_pie
  rcases hres : Api.resolve_portfolio db u dp fp with _ | ⟨fid, db1⟩
  · simp only [hres]
    exact hinv
  · simp only [hres]
    obtain ⟨hpies, hslices⟩ := resolve_portfolio_some_elim hres
    have hinv1 : allocation_invariant db1 :=
      allocation_invariant_congr hpies hslices hinv
    have hnd1 : (db1.pies.map fun q => q.id).Nodup := by
      rw [hpies]; exact hnd
    have ha01 : ∀ q ∈ db1.pies, 0 ≤ q.target_allocation := by
      rw [hpies]; exact ha0
    have hna1 : ∀ q ∈ db1.pies, q.id = pie_id → actA = some true →
        q.is_active = true := by
      rw [hpies]; exact hna
    cases haA : aA with
    | none =>
      rcases hupd : PieService.update db1 pie_id fid nmA dscA colA icnA none
          actA with _ | e | _ | ⟨p', db2⟩
      · simp only [hupd]
        exact hinv1
      · simp only [hupd]
        exact hinv1
      · simp only [hupd]
        exact hinv1
      · simp only [hupd]
        have hpres := pie_update_preserves_alloc hupd hnd1 ha01 hna1
          (fun p a hf habs => absurd habs (by simp)) hinv1.1
        refine ⟨hpres.1, ?_⟩
        intro pid
        rw [get_total_weight_congr hpres.2]
        exact hinv1.2 pid
    | some a =>
      rcases hfind : PieService.get_by_id db1 pie_id fid with _ | existing
      · simp only [hfind]
        exact hinv1
      · by_cases hgt : PieService.get_total_allocation db1 fid -
            existing.target_allocation + a > 100
        · simp only [hfind, if_pos hgt]
          exact hinv1
        · simp only [hfind, if_neg hgt]
          rcases hupd : PieService.update db1 pie_id fid nmA dscA colA icnA
              (some a) actA with _ | e | _ | ⟨p', db2⟩
          · simp only [hupd]
            exact hinv1
          · simp only [hupd]
            exact hinv1
          · simp only [hupd]
            exact hinv1
          · simp only [hupd]
            have hg : ∀ p a', PieService.get_by_id db1 pie_id fid = some p →
                (some a : Option ℚ) = some a' →
                PieService.get_total_allocation db1 fid -
                  p.target_allocation + a' ≤ 100 := by
              intro p a' hf ha'
              rw [hfind] at hf
              rw [← Option.some_inj.mp hf, ← Option.some_inj.mp ha']
              exact not_lt.mp hgt
            have hpres := pie_update_preserves_alloc hupd hnd1 ha01 hna1 hg
              hinv1.1
            refine ⟨hpres.1, ?_⟩
            intro pid
            rw [get_total_weight_congr hpres.2]
            exact hinv1.2 pid

lemma create_slice_400_noop (db : DB) (u pie_id sym : String) (w : ℚ)
    (nm nts : Option String) (fp fs : String) :
    (Api.create_slice db u pie_id sym w nm nts fp fs).status = 400 →
    (Api.create_slice db u pie_id sym w nm nts fp fs).db.pies = db.pies ∧
    (Api.create_slice db u pie_id sym w nm nts fp fs).db.slices
      = db.slices := by
  unfold Api.create_slice
  rcases hr : Api.get_user_default_portfolio db u fp with ⟨fid, db1⟩
  have hpres := resolver_preserves db u fp
  rw [hr] at hpres
  rcases hsvc : SliceService.create db1 fs pie_id fid sym w nm nts
    with _ | e | _ | ⟨s, db2⟩ <;> simp only [hsvc]
  · intro h
    exact absurd h (by norm_num)
  · intro _
    exact hpres
  · intro h
    exact absurd h (by norm_num)
  · intro h
    exact absurd h (by norm_num)

lemma update_slice_400_noop (db : DB) (u pie_id slice_id : String)
    (symA nmA : Option String) (wA : Option ℚ) (ntsA : Option String)
    (aA : Option Bool) (fp : String) :
    (Api.update_slice db u pie_id slice_id symA nmA wA ntsA aA fp).status
      = 400 →
    (Api.update_slice db u pie_id slice_id symA nmA wA ntsA aA fp).db.pies
      = db.pies ∧
    (Api.update_slice db u pie_id slice_id symA nmA wA ntsA aA fp).db.slices
      = db.slices := by
  unfold Api.update_slice
  rcases hr : Api.get_user_default_portfolio db u fp with ⟨fid, db1⟩
  have hpres := resolver_preserves db u fp
  rw [hr] at hpres
  rcases hfind : SliceService.get_by_id db1 slice_id fid with _ | s
  · simp only [hfind]
    intro h
    exact absurd h (by norm_num)
  · simp only [hfind]
    by_cases hm : (s.pie_id != pie_id) = true
    · rw [if_pos hm]
      intro h
      exact absurd h (by norm_num)
    · rw [if_neg hm]
      rcases hsvc : SliceService.update db1 slice_id fid symA nmA wA ntsA aA
        with _ | e | _ | ⟨s', db2⟩ <;> simp only [hsvc]
      · intro h
        exact absurd h (by norm_num)
      · intro _
        exact hpres
      · intro h
        exact absurd h (by norm_num)
      · intro h
        exact absurd h (by norm_num)

lemma create_pie_400_noop (db : DB) (u : String) (dp : Option String)
    (nm : String) (dsc : Option String) (col : String) (icn : Option String)
    (a : ℚ) (fp fpie : String) :
    (Api.create_pie db u dp nm dsc col icn a fp fpie).status = 400 →
    (Api.create_pie db u dp nm dsc col icn a fp fpie).db.pies = db.pies ∧
    (Api.create_pie db u dp nm dsc col icn a fp fpie).db.slices
      = db.slices := by
  unfold Api.create_pie
  rcases hres : Api.resolve_portfolio db u dp fp with _ | ⟨fid, db1⟩
  · simp only [hres]
    intro h
    exact absurd h (by norm_num)
  · simp only [hres]
    obtain ⟨hpies, hslices⟩ := resolve_portfolio_some_elim hres
    by_cases hguard : PieService.get_total_allocation db1 fid + a > 100
    · rw [if_pos hguard]
      intro _
      exact ⟨hpies, hslices⟩
    · rw [if_neg hguard]
      simp only [PieService.create]
      intro h
      exact absurd h (by norm_num)

lemma update_pie_400_noop (db : DB) (u pie_id : String) (dp : Option String)
    (nmA dscA : Option String) (colA icnA : Option String) (aA : Option ℚ)
    (actA : Option Bool) (fp : String) :
    (Api.update_pie db u pie_id dp nmA dscA colA icnA aA actA fp).status
      = 400 →
    (Api.update_pie db u pie_id dp nmA dscA colA icnA aA actA fp).db.pies
      = db.pies ∧
    (Api.update_pie db u pie_id dp nmA dscA colA icnA aA actA fp).db.slices
      = db.slices := by
  unfold Api.update_pie
  rcases hres : Api.resolve_portfolio db u dp fp with _ | ⟨fid, db1⟩
  · simp only [hres]
    intro h
    exact absurd h (by norm_num)
  · simp only [hres]
    obtain ⟨hpies, hslices⟩ := resolve_portfolio_some_elim hres
    cases haA : aA with
    | none =>
      rcases hupd : PieService.update db1 pie_id fid nmA dscA colA icnA none
          actA with _ | e | _ | ⟨p', db2⟩ <;> simp only [hupd]
      · intro h
        exact absurd h (by norm_num)
      · intro h
        exact absurd h (by norm_num)
      · intro h
        exact absurd h (by norm_num)
      · intro h
        exact absurd h (by norm_num)
    | some a =>
      rcases hfind : PieService.get_by_id db1 pie_id fid with _ | existing
      · simp only [hfind]
        intro h
        exact absurd h (by norm_num)
      · by_cases hgt : PieService.get_total_allocation db1 fid -
            existing.target_allocation + a > 100
        · simp only [hfind, if_pos hgt]
          intro _
          exact ⟨hpies, hslices⟩
        · simp only [hfind, if_neg hgt]
          rcases hupd : PieService.update db1 pie_id fid nmA dscA colA icnA
              (some a) actA with _ | e | _ | ⟨p', db2⟩ <;> simp only [hupd]
          · intro h
            exact absurd h (by norm_num)
          · intro h
            exact absurd h (by norm_num)
          · intro h
            exact absurd h (by norm_num)
          · intro h
            exact absurd h (by norm_num)

/-- C1, counterexample.  The invariant does not survive every successful
update: in a state satisfying it (active sum 100 in pie `P`, inactive
slice `b` of weight 50), the update endpoint reactivates `b`
(`is_active := true`, no weight change) with status 200 — no guard runs on
a reactivation — and the active sum becomes 150 > 100. -/
theorem C1_counterexample :
    SliceService.get_total_weight fxDbInact "P" ≤ 100 ∧
    (Api.update_slice fxDbInact "u" "P" "b" none none none none (some true)
        "fresh").status = 200 ∧
    SliceService.get_total_weight
      (Api.update_slice fxDbInact "u" "P" "b" none none none none (some true)
        "fresh").db "P" = 150 ∧
    ¬ ((150 : ℚ) ≤ 100) := by
  have h1 : ("a" == "b") = false := by decide
  have h2 : ("AAPL" == "MSFT") = false := by decide
  have hres := fx_resolver "fresh" fxDbInact rfl
  have hfind : SliceService.get_by_id fxDbInact "b" "F" = some fxBInact := by
    simp [SliceService.get_by_id, List.find?, fxDbInact, fxAfull, fxBInact,
      SliceService.verify_pie_ownership, fxPie, h1]
  have hupd : SliceService.update fxDbInact "b" "F" none none none none
      (some true) =
      .ok { fxBInact with is_active := true }
        { fxDbInact with
          slices := [fxAfull, { fxBInact with is_active := true }] } := by
    rw [SliceService.update, hfind]
    norm_num [SliceService.update_guard_err, SliceService.update_dup,
      SliceService.apply_update, fxDbInact, fxAfull, fxBInact, h1, h2,
      List.filter_cons]
    all_goals decide
  have hmain : Api.update_slice fxDbInact "u" "P" "b" none none none none
      (some true) "fresh" =
      { status := 200, body := some { fxBInact with is_active := true },
        db := { fxDbInact with
          slices := [fxAfull, { fxBInact with is_active := true }] } } := by
    rw [Api.update_slice, hres]
    simp only [hfind, hupd]
    norm_num [fxBInact]
  refine ⟨?_, ?_, ?_, by norm_num⟩
  · norm_num [SliceService.get_total_weight, fxDbInact, fxAfull, fxBInact,
      List.filter_cons]
  · rw [hmain]
  · rw [hmain]
    norm_num [SliceService.get_total_weight, fxDbInact, fxAfull, fxBInact,
      List.filter_cons]

/-- C1, amended.  The ≤ 100 invariant over all active sibling sums is
preserved by every successful slice create, every successful slice update
that does not flip an inactive slice to active, the pie-create endpoint,
and every pie-update endpoint call that does not flip an inactive pie to
active (stored percentages being non-negative and ids unique, per the
schema bounds); reactivation is unguarded and can break it
(counterexample).  Rejected writes are no-ops: a 400 response from any of
the four write endpoints leaves the pies and slices tables unchanged. -/
theorem C1_allocation_invariant :
    (∀ (db : DB) (fresh pie_id fid sym : String) (w : ℚ)
        (nm nts : Option String) (s : SliceRow) (db' : DB),
        SliceService.create db fresh pie_id fid sym w nm nts = .ok s db' →
        allocation_invariant db → allocation_invariant db') ∧
    (∀ (db : DB) (sid fid : String) (symA nmA : Option String)
        (wA : Option ℚ) (ntsA : Option String) (aA : Option Bool)
        (s' : SliceRow) (db' : DB),
        (db.slices.map fun t => t.id).Nodup →
        (∀ t ∈ db.slices, 0 ≤ t.target_weight) →
        (∀ t ∈ db.slices, t.id = sid → aA = some true → t.is_active = true) →
        SliceService.update db sid fid symA nmA wA ntsA aA = .ok s' db' →
        allocation_invariant db → allocation_invariant db') ∧
    (∀ (db : DB) (u : String) (dp : Option String) (nm : String)
        (dsc : Option String) (col : String) (icn : Option String) (a : ℚ)
        (fp fpie : String),
        allocation_invariant db →
        allocation_invariant
          (Api.create_pie db u dp nm dsc col icn a fp fpie).db) ∧
    (∀ (db : DB) (u pie_id : String) (dp : Option String)
        (nmA dscA colA icnA : Option String) (aA : Option ℚ)
        (actA : Option Bool) (fp : String),
        (db.pies.map fun q => q.id).Nodup →
        (∀ q ∈ db.pies, 0 ≤ q.target_allocation) →
        (∀ q ∈ db.pies, q.id = pie_id → actA = some true →
          q.is_active = true) →
        allocation_invariant db →
        allocation_invariant
          (Api.update_pie db u pie_id dp nmA dscA colA icnA aA actA fp).db) ∧
    (∀ (db : DB) (u pie_id sym : String) (w : ℚ) (nm nts : Option String)
        (fp fs : String),
        (Api.create_slice db u pie_id sym w nm nts fp fs).status = 400 →
        (Api.create_slice db u pie_id sym w nm nts fp fs).db.pies = db.pies ∧
        (Api.create_slice db u pie_id sym w nm nts fp fs).db.slices
          = db.slices) ∧
    (∀ (db : DB) (u pie_id slice_id : String) (symA nmA : Option String)
        (wA : Option ℚ) (ntsA : Option String) (aA : Option Bool)
        (fp : String),
        (Api.update_slice db u pie_id slice_id symA nmA wA ntsA aA fp).status
          = 400 →
        (Api.update_slice db u pie_id slice_id symA nmA wA ntsA
            aA fp).db.pies = db.pies ∧
        (Api.update_slice db u pie_id slice_id symA nmA wA ntsA
            aA fp).db.slices = db.slices) ∧
    (∀ (db : DB) (u : String) (dp : Option String) (nm : String)
        (dsc : Option String) (col : String) (icn : Option String) (a : ℚ)
        (fp fpie : String),
        (Api.create_pie db u dp nm dsc col icn a fp fpie).status = 400 →
        (Api.create_pie db u dp nm dsc col icn a fp fpie).db.pies
          = db.pies ∧
        (Api.create_pie db u dp nm dsc col icn a fp fpie).db.slices
          = db.slices) ∧
    (∀ (db : DB) (u pie_id : String) (dp : Option String)
        (nmA dscA colA icnA : Option String) (aA : Option ℚ)
        (actA : Option Bool) (fp : String),
        (Api.update_pie db u pie_id dp nmA dscA colA icnA aA actA fp).status
          = 400 →
        (Api.update_pie db u pie_id dp nmA dscA colA icnA aA
            actA fp).db.pies = db.pies ∧
        (Api.update_pie db u pie_id dp nmA dscA colA icnA aA
            actA fp).db.slices = db.slices) := by
  refine ⟨?_, ?_, ?_, ?_, ?_, ?_, ?_, ?_⟩
  · intro db fresh pie_id fid sym w nm nts s db' h hinv
    obtain ⟨hsl, hpies⟩ := slice_create_preserves_inv h hinv.2
    exact ⟨fun fid' => by
      rw [get_total_allocation_congr hpies]
      exact hinv.1 fid', hsl⟩
  · intro db sid fid symA nmA wA ntsA aA s' db' hnd hw0 hna h hinv
    obtain ⟨hsl, hpies⟩ := slice_update_preserves_inv h hnd hw0 hna hinv.2
    exact ⟨fun fid' => by
      rw [get_total_allocation_congr hpies]
      exact hinv.1 fid', hsl⟩
  · exact create_pie_endpoint_inv
  · exact update_pie_endpoint_inv
  · exact create_slice_400_noop
  · exact update_slice_400_noop
  · exact create_pie_400_noop
  · exact update_pie_400_noop

/-- C1 witness: the amended preservation statements applied at concrete
states — a slice create into the empty pie, a guarded weight update, a pie
create from the empty state, a pie update in portfolio `Q`, and the four
endpoints' 400 rejections leaving pies/slices unchanged. -/
theorem C1_allocation_invariant_witness :
    allocation_invariant { fxDbEmptyPie with slices := [fxNewSlice] } ∧
    allocation_invariant
      { fxDb60 with slices := [{ fxA60 with target_weight := 50 }] } ∧
    allocation_invariant
      (Api.create_pie fxDbNil "u" none "N" none "#3B82F6" none 40 "np"
        "pp").db ∧
    allocation_invariant
      (Api.update_pie fxDbOther "u" "PQ" (some "Q") none none none none
        (some 50) none "fresh").db ∧
    (Api.create_slice fxDb60 "u" "P" "MSFT" 50 none none "fresh"
        "s9").db.slices = fxDb60.slices ∧
    (Api.update_slice fxDb60 "u" "P" "a" none none (some 110) none none
        "fresh").db.slices = fxDb60.slices ∧
    (Api.create_pie fxDbOneSlice "u" none "X" none "#3B82F6" none 95 "np"
        "pp").db.pies = fxDbOneSlice.pies ∧
    (Api.update_pie fxDbOneSlice "u" "P" none none none none none (some 200)
        none "fresh").db.pies = fxDbOneSlice.pies := by
  have hsym : strUpper "MSFT" = "MSFT" := by decide
  have hinvEmpty : allocation_invariant fxDbEmptyPie := by
    apply allocation_invariant_intro
    · intro fid hfid
      simp [fxDbEmptyPie, fxPie] at hfid
      subst hfid
      norm_num [get_total_allocation_eq_contrib, pie_contrib, fxDbEmptyPie,
        fxPie]
    · intro pid hpid
      simp [fxDbEmptyPie] at hpid
  have hinv60 : allocation_invariant fxDb60 := by
    apply allocation_invariant_intro
    · intro fid hfid
      simp [fxDb60, fxPie] at hfid
      subst hfid
      norm_num [get_total_allocation_eq_contrib, pie_contrib, fxDb60, fxPie]
    · intro pid hpid
      simp [fxDb60, fxA60] at hpid
      subst hpid
      norm_num [SliceService.get_total_weight, fxDb60, fxA60]
  have hinvNil : allocation_invariant fxDbNil := by
    apply allocation_invariant_intro
    · intro fid hfid
      simp [fxDbNil] at hfid
    · intro pid hpid
      simp [fxDbNil] at hpid
  have hinvOther : allocation_invariant fxDbOther := by
    apply allocation_invariant_intro
    · intro fid hfid
      simp [fxDbOther, fxPieQ] at hfid
      subst hfid
      norm_num [get_total_allocation_eq_contrib, pie_contrib, fxDbOther,
        fxPieQ]
    · intro pid hpid
      simp [fxDbOther] at hpid
  have hinvOne : allocation_invariant fxDbOneSlice := by
    apply allocation_invariant_intro
    · intro fid hfid
      simp [fxDbOneSlice, fxPie] at hfid
      subst hfid
      norm_num [get_total_allocation_eq_contrib, pie_contrib, fxDbOneSlice,
        fxPie]
    · intro pid hpid
      simp [fxDbOneSlice, fxSliceM] at hpid
      subst hpid
      norm_num [SliceService.get_total_weight, fxDbOneSlice, fxSliceM]
  have hcreate1 : SliceService.create fxDbEmptyPie "s1" "P" "F" "MSFT" 10
      none none = .ok fxNewSlice { fxDbEmptyPie with slices := [fxNewSlice] } := by
    norm_num [SliceService.create, SliceService.verify_pie_ownership,
      SliceService.get_total_weight, fxDbEmptyPie, fxPie, fxPortfolio,
      max_order_of, hsym, fxNewSlice]
  have hfind60 : SliceService.get_by_id fxDb60 "a" "F" = some fxA60 := by
    simp [SliceService.get_by_id, List.find?, fxDb60, fxA60,
      SliceService.verify_pie_ownership, fxPie]
  have hupd50 : SliceService.update fxDb60 "a" "F" none none (some 50) none
      none =
      .ok { fxA60 with target_weight := 50 }
        { fxDb60 with slices := [{ fxA60 with target_weight := 50 }] } := by
    rw [SliceService.update, hfind60]
    norm_num [SliceService.update_guard_err, SliceService.update_dup,
      SliceService.apply_update, SliceService.get_total_weight, fxDb60,
      fxA60, List.filter_cons]
  have hres60 := fx_resolver "fresh" fxDb60 rfl
  have hresOne := fx_resolver "fresh" fxDbOneSlice rfl
  have hsvc400 : SliceService.create fxDb60 "s9" "P" "F" "MSFT" 50 none none
      = .valueError (.sliceCreateExceeded 60 50 110) := by
    apply (slice_create_valueError_iff fxDb60 "s9" "P" "F" "MSFT" 50 none
      none _).mpr
    have htot : SliceService.get_total_weight fxDb60 "P" = 60 := by
      norm_num [SliceService.get_total_weight, fxDb60, fxA60]
    refine ⟨by decide, ?_, ?_⟩
    · rw [htot]
      norm_num
    · rw [htot]
      norm_num
  have hst1 : (Api.create_slice fxDb60 "u" "P" "MSFT" 50 none none "fresh"
      "s9").status = 400 := by
    rw [Api.create_slice, hres60]
    simp only [hsvc400]
  have hsvc400b : SliceService.update fxDb60 "a" "F" none none (some 110)
      none none = .valueError (.sliceUpdateExceeded 110) := by
    apply (slice_update_valueError_iff fxDb60 "a" "F" none none (some 110)
      none none _).mpr
    refine ⟨fxA60, hfind60, ?_⟩
    apply (update_guard_err_some_iff fxDb60 fxA60 110 _).mpr
    norm_num [SliceService.get_total_weight, fxDb60, fxA60]
  have hst2 : (Api.update_slice fxDb60 "u" "P" "a" none none (some 110) none
      none "fresh").status = 400 := by
    rw [Api.update_slice, hres60]
    simp only [hfind60, hsvc400b]
    norm_num [fxA60]
  have hresolveOne : Api.resolve_portfolio fxDbOneSlice "u" none "np" =
      some ("F", fxDbOneSlice) := by
    rw [Api.resolve_portfolio, if_neg (by decide)]
    rw [fx_resolver "np" fxDbOneSlice rfl]
  have hresolveOne2 : Api.resolve_portfolio fxDbOneSlice "u" none "fresh" =
      some ("F", fxDbOneSlice) := by
    rw [Api.resolve_portfolio, if_neg (by decide)]
    rw [fx_resolver "fresh" fxDbOneSlice rfl]
  have htotOne : PieService.get_total_allocation fxDbOneSlice "F" = 10 := by
    norm_num [get_total_allocation_eq_contrib, pie_contrib, fxDbOneSlice,
      fxPie]
  have hst3 : (Api.create_pie fxDbOneSlice "u" none "X" none "#3B82F6" none
      95 "np" "pp").status = 400 := by
    rw [Api.create_pie]
    simp only [hresolveOne]
    rw [if_pos (by rw [htotOne]; norm_num)]
  have hfindP : PieService.get_by_id fxDbOneSlice "P" "F" = some fxPie := by
    simp [PieService.get_by_id, List.find?, fxDbOneSlice, fxPie]
  have hst4 : (Api.update_pie fxDbOneSlice "u" "P" none none none none none
      (some 200) none "fresh").status = 400 := by
    rw [Api.update_pie]
    simp only [hresolveOne2, hfindP]
    rw [if_pos (by rw [htotOne]; norm_num [fxPie])]
  refine ⟨?_, ?_, ?_, ?_, ?_, ?_, ?_, ?_⟩
  · exact C1_allocation_invariant.1 fxDbEmptyPie "s1" "P" "F" "MSFT" 10 none
      none _ _ hcreate1 hinvEmpty
  · exact C1_allocation_invariant.2.1 fxDb60 "a" "F" none none (some 50) none
      none _ _ (by simp [fxDb60, fxA60]) (by
        intro t ht
        simp [fxDb60] at ht
        rw [ht]
        norm_num [fxA60]) (by
        intro t ht hid habs
        exact absurd habs (by simp)) hupd50 hinv60
  · exact C1_allocation_invariant.2.2.1 fxDbNil "u" none "N" none "#3B82F6"
      none 40 "np" "pp" hinvNil
  · exact C1_allocation_invariant.2.2.2.1 fxDbOther "u" "PQ" (some "Q") none
      none none none (some 50) none "fresh" (by simp [fxDbOther, fxPieQ]) (by
        intro q hq
        simp [fxDbOther] at hq
        rw [hq]
        norm_num [fxPieQ]) (by
        intro q hq hid habs
        exact absurd habs (by simp)) hinvOther
  · exact (C1_allocation_invariant.2.2.2.2.1 fxDb60 "u" "P" "MSFT" 50 none
      none "fresh" "s9" hst1).2
  · exact (C1_allocation_invariant.2.2.2.2.2.1 fxDb60 "u" "P" "a" none none
      (some 110) none none "fresh" hst2).2
  · exact (C1_allocation_invariant.2.2.2.2.2.2.1 fxDbOneSlice "u" none "X"
      none "#3B82F6" none 95 "np" "pp" hst3).1
  · exact (C1_allocation_invariant.2.2.2.2.2.2.2 fxDbOneSlice "u" "P" none
      none none none none (some 200) none "fresh" hst4).1
